import Mathlib

/-!
# yarn-install (Berry support): strategy selection and cache validity

A shallow embedding of `constants.go`, `yarnrc_parser.go`,
`berry_install_process.go` and `detect.go`.

Conventions of the embedding

* A nilable `*YarnrcConfig` is an `Option YarnrcConfig`; a nilable `*bool`
  is an `Option Bool`.
* Go byte slices and strings are Lean `String`s.
* A Go `error` is an `Option String` (or the `error` side of `Except`)
  carrying the message; `fmt.Errorf("ctx: %w", err)` is `"ctx: " ++ msg`.
* Everything outside the repository (the `os` and `path/filepath` packages,
  `yaml.Unmarshal`, the packit `fs`, `pexec` and checksum helpers, the
  `libnodejs` project locator) is a field of the record `Sys σ`, whose
  operations act on an explicit machine state `σ`.
* Calls to the logger and to the package-manager executable are recorded,
  in program order, in a list of `Event`s.
* What a sequence of file-system calls leaves on disk is derived from laws of
  the single calls, collected in `FsLaws`; the sample machine `Machine` is
  shown to obey them.
-/

set_option linter.unusedVariables false

namespace YarnInstall

/-! ## constants.go -/

def PlanDependencyNodeModules : String := "node_modules"
def PlanDependencyYarnPkgs : String := "yarn_pkgs"
def PlanDependencyNode : String := "node"
def PlanDependencyYarn : String := "yarn"

def YarnClassic : String := "classic"
def YarnBerry : String := "berry"

def YarnrcYml : String := ".yarnrc.yml"
def YarnrcJs : String := ".yarnrc"
def YarnLock : String := "yarn.lock"
def PnpCjs : String := ".pnp.cjs"

def NodeLinkerPnP : String := "pnp"
def NodeLinkerNodeModules : String := "node-modules"
def NodeLinkerPnpm : String := "pnpm"

/-! ## Data model -/

/-- A value of Go type `interface{}`, as far as the code distinguishes
values: only the dynamic type `string` is ever asserted. -/
inductive GoValue where
  | nil
  | bool (b : Bool)
  | int (i : Int)
  | str (s : String)
  | other (shown : String)
  deriving DecidableEq, Repr

/-- The struct `YarnrcConfig` of `yarnrc_parser.go`. -/
structure YarnrcConfig where
  NodeLinker : String
  PnpIgnorePatterns : List String
  CacheFolder : String
  EnableImmutableInstalls : Option Bool
  YarnPath : String
  PackageExtensions : List (String × GoValue)
  deriving DecidableEq, Repr

/-- The zero value `YarnrcConfig{}`. -/
def YarnrcConfig.zero : YarnrcConfig :=
  { NodeLinker := "", PnpIgnorePatterns := [], CacheFolder := "",
    EnableImmutableInstalls := none, YarnPath := "", PackageExtensions := [] }

/-- The layer metadata `map[string]interface{}`. -/
abbrev Metadata := String → Option GoValue

/-- The map `m` with `m[k] = v`. -/
def Metadata.set (m : Metadata) (k : String) (v : GoValue) : Metadata :=
  fun key => if key = k then some v else m key

/-- The type assertion `metadata[k].(string)`: the string and `ok`. -/
def Metadata.assertString (m : Metadata) (k : String) : Option String :=
  match m k with
  | some (GoValue.str s) => some s
  | _ => none

/-! ## yarnrc_parser.go, the pure part -/

/-- The function `DetermineProvisionType` of `yarnrc_parser.go`. -/
def DetermineProvisionType (projectPath : String) (config : Option YarnrcConfig) : String :=
  match config with
  | none => PlanDependencyNodeModules
  | some c =>
    if c.NodeLinker = NodeLinkerNodeModules ∨ c.NodeLinker = NodeLinkerPnpm then
      PlanDependencyNodeModules
    else if c.NodeLinker = NodeLinkerPnP ∨ c.NodeLinker = "" then
      PlanDependencyYarnPkgs
    else
      PlanDependencyNodeModules

/-- The function `ShouldUseNodeModules` of `yarnrc_parser.go`. -/
def ShouldUseNodeModules (projectPath : String) (config : Option YarnrcConfig) : Bool :=
  DetermineProvisionType projectPath config == PlanDependencyNodeModules

/-! ## The outside world -/

/-- An error of the `os` package: `notExist` is what `os.IsNotExist` and
`errors.Is(err, os.ErrNotExist)` answer for it. -/
structure OsError where
  notExist : Bool
  msg : String
  deriving DecidableEq, Repr

/-- What the code reads of an `os.FileInfo`. -/
structure FileInfo where
  isSymlink : Bool
  isDir : Bool
  deriving DecidableEq, Repr

/-- The fields of `pexec.Execution` the code sets, the output writers apart:
what the subprocess writes to them is the `output` of `ExecResult`. -/
structure Execution where
  Args : List String
  Env : List String
  Dir : String
  deriving DecidableEq, Repr

/-- The outcome of `Executable.Execute`: its error, the bytes written to the
`Stdout` and `Stderr` writers, and the machine state left behind. -/
structure ExecResult (σ : Type) where
  err : Option String
  output : String
  state : σ

/-- A call to the logger or to the package manager. -/
inductive Event where
  | subprocess (msg : String)
  | action (msg : String)
  | lineBreak
  | actionWriter (bytes : String)
  | exec (e : Execution)
  deriving DecidableEq, Repr

/-- Whether an event is an invocation of the package manager. -/
def Event.isExec : Event → Bool
  | Event.exec _ => true
  | _ => false

/-- The external collaborators, over a machine state `σ` (file system,
process environment, the package manager's own state). -/
structure Sys (σ : Type) where
  /-- The two-argument `filepath.Join`. -/
  join : String → String → String
  /-- The constant `os.PathListSeparator`. -/
  pathListSeparator : Char
  /-- The function `os.Stat`. -/
  stat : σ → String → Except OsError FileInfo
  /-- The function `os.Lstat`. -/
  lstat : σ → String → Except OsError FileInfo
  /-- The function `os.ReadFile`. -/
  readFile : σ → String → Except OsError String
  /-- The call `yaml.Unmarshal(data, &config)` on a zero `YarnrcConfig`. -/
  unmarshal : String → Except String YarnrcConfig
  /-- The function `os.Getenv`. -/
  getenv : σ → String → String
  /-- The function `os.Environ`. -/
  environ : σ → List String
  /-- The function `os.CreateTemp(dir, pattern)`: the name of the new file. -/
  createTemp : σ → String → String → Except String (String × σ)
  /-- The method `file.Write` on the file of that name. -/
  write : σ → String → String → Except String σ
  /-- The method `Summer.Sum` on a list of paths. -/
  sum : σ → List String → Except String String
  /-- The method `Executable.Execute`. -/
  execute : σ → Execution → ExecResult σ
  /-- The function `os.RemoveAll`. -/
  removeAll : σ → String → Except String σ
  /-- The function `os.MkdirAll(path, os.ModePerm)`. -/
  mkdirAll : σ → String → Except String σ
  /-- The function `os.Symlink(oldname, newname)`. -/
  symlink : σ → String → String → Except String σ
  /-- The packit function `fs.Copy(source, destination)`. -/
  copy : σ → String → String → Except String σ
  /-- The packit function `fs.Move(source, destination)`. -/
  move : σ → String → String → Except String σ
  /-- The function `libnodejs.FindProjectPath`. -/
  findProjectPath : σ → String → Except String String
  /-- The packit function `fs.Exists`. -/
  fsExists : σ → String → Except String Bool
  /-- The node version `libnodejs.ParsePackageJSON(path)` then `GetVersion()` give. -/
  parsePackageJSON : σ → String → Except OsError String

/-- A value computed by a procedure, with the state it leaves and the events
it issued. -/
structure Ran (α σ : Type) where
  val : α
  state : σ
  trace : List Event

/-- The same run preceded by earlier events. -/
def Ran.after {α σ : Type} (earlier : List Event) (r : Ran α σ) : Ran α σ :=
  { r with trace := earlier ++ r.trace }

/-! ## yarnrc_parser.go, the file-system part -/

/-- The function `ParseYarnrcYml` of `yarnrc_parser.go`: `ok none` is `(nil, nil)`. -/
def ParseYarnrcYml {σ : Type} (sys : Sys σ) (s : σ) (projectPath : String) :
    Except String (Option YarnrcConfig) :=
  let yarnrcPath := sys.join projectPath YarnrcYml
  match sys.readFile s yarnrcPath with
  | Except.error err =>
    if err.notExist then Except.ok none else Except.error err.msg
  | Except.ok data =>
    match sys.unmarshal data with
    | Except.error err => Except.error err
    | Except.ok config => Except.ok (some config)

/-- The function `DetermineYarnVersion` of `yarnrc_parser.go`. -/
def DetermineYarnVersion {σ : Type} (sys : Sys σ) (s : σ) (projectPath : String) :
    Except String String :=
  let yarnrcYmlPath := sys.join projectPath YarnrcYml
  match sys.stat s yarnrcYmlPath with
  | Except.ok _ => Except.ok YarnBerry
  | Except.error _ =>
    let yarnLockPath := sys.join projectPath YarnLock
    match sys.stat s yarnLockPath with
    | Except.ok _ => Except.ok YarnClassic
    | Except.error _ => Except.ok ""

/-- The function `HasPnpFiles` of `yarnrc_parser.go`. -/
def HasPnpFiles {σ : Type} (sys : Sys σ) (s : σ) (projectPath : String) :
    Except String Bool :=
  let pnpPath := sys.join projectPath PnpCjs
  match sys.stat s pnpPath with
  | Except.ok _ => Except.ok true
  | Except.error err =>
    if err.notExist then Except.ok false else Except.error err.msg

/-- The function `HasYarnCache` of `yarnrc_parser.go`. -/
def HasYarnCache {σ : Type} (sys : Sys σ) (s : σ) (projectPath : String)
    (config : Option YarnrcConfig) : Except String Bool :=
  let cacheDir :=
    match config with
    | some c => if c.CacheFolder ≠ "" then c.CacheFolder else ".yarn/cache"
    | none => ".yarn/cache"
  let cachePath := sys.join projectPath cacheDir
  match sys.stat s cachePath with
  | Except.ok _ => Except.ok true
  | Except.error err =>
    if err.notExist then Except.ok false else Except.error err.msg

/-! ## berry_install_process.go -/

/-- The three results `(run bool, sha string, err error)` of `ShouldRun`. -/
structure Decision where
  run : Bool
  sha : String
  err : Option String
  deriving DecidableEq, Repr

/-- The verb `%t` of `fmt`. -/
def fmtBool (b : Bool) : String := if b then "true" else "false"

/-- The method `shouldRunForNodeModules` of `berry_install_process.go`. The
buffer that receives both output streams is `r.output`; the deferred
`file.Close()`, whose error is dropped, has no counterpart. -/
def shouldRunForNodeModules {σ : Type} (sys : Sys σ) (s : σ) (workingDir : String)
    (metadata : Metadata) : Ran Decision σ :=
  let info : Execution := { Args := ["info", "--all", "--json"], Env := [], Dir := workingDir }
  let r := sys.execute s info
  match r.err with
  | some _ =>
    { val := { run := true, sha := "", err := none }, state := r.state,
      trace := [Event.exec info,
                Event.action "Failed to get yarn info, falling back to install"] }
  | none =>
    let nodeEnv := sys.getenv r.state "NODE_ENV"
    let buffer := r.output ++ nodeEnv
    match sys.createTemp r.state "" "berry-config-file" with
    | Except.error err =>
      { val := { run := true, sha := "", err := some ("failed to create temp file: " ++ err) },
        state := r.state, trace := [Event.exec info] }
    | Except.ok (fileName, s1) =>
      match sys.write s1 fileName buffer with
      | Except.error err =>
        { val := { run := true, sha := "", err := some ("failed to write temp file: " ++ err) },
          state := s1, trace := [Event.exec info] }
      | Except.ok s2 =>
        match sys.sum s2 [sys.join workingDir YarnLock, sys.join workingDir "package.json",
                          fileName] with
        | Except.error err =>
          { val := { run := true, sha := "",
                     err := some ("unable to sum config files: " ++ err) },
            state := s2, trace := [Event.exec info] }
        | Except.ok sum =>
          match metadata.assertString "cache_sha" with
          | some prevSHA =>
            if sum ≠ prevSHA then
              { val := { run := true, sha := sum, err := none }, state := s2,
                trace := [Event.exec info] }
            else
              { val := { run := false, sha := "", err := none }, state := s2,
                trace := [Event.exec info] }
          | none =>
            { val := { run := true, sha := sum, err := none }, state := s2,
              trace := [Event.exec info] }

/-- The method `shouldRunForPnP` of `berry_install_process.go`. -/
def shouldRunForPnP {σ : Type} (sys : Sys σ) (s : σ) (workingDir : String)
    (config : Option YarnrcConfig) (metadata : Metadata) : Ran Decision σ :=
  let hasYarnrcYml := config.isSome
  let t0 := [Event.action (".yarnrc.yml -> " ++ fmtBool hasYarnrcYml)]
  match HasPnpFiles sys s workingDir with
  | Except.error err =>
    { val := { run := true, sha := "", err := some ("failed to check for PnP files: " ++ err) },
      state := s, trace := t0 }
  | Except.ok hasPnpFiles =>
    let t1 := t0 ++ [Event.action (".pnp.cjs -> " ++ fmtBool hasPnpFiles)]
    match HasYarnCache sys s workingDir config with
    | Except.error err =>
      { val := { run := true, sha := "",
                 err := some ("failed to check for yarn cache: " ++ err) },
        state := s, trace := t1 }
    | Except.ok hasCache =>
      let t2 := t1 ++ [Event.action ("Yarn cache -> " ++ fmtBool hasCache), Event.lineBreak]
      if hasYarnrcYml && hasPnpFiles && hasCache then
        { val := { run := false, sha := "", err := none }, state := s,
          trace := t2 ++ [Event.action "PnP setup complete, skipping install"] }
      else
        { val := { run := true, sha := "", err := none }, state := s, trace := t2 }

/-- The method `ShouldRun` of `berry_install_process.go`. -/
def ShouldRun {σ : Type} (sys : Sys σ) (s : σ) (workingDir : String)
    (metadata : Metadata) : Ran Decision σ :=
  let t0 := [Event.subprocess "Process inputs (Berry):"]
  let yarnLockPath := sys.join workingDir YarnLock
  match sys.stat s yarnLockPath with
  | Except.error err =>
    if err.notExist then
      { val := { run := true, sha := "", err := none }, state := s,
        trace := t0 ++ [Event.action "yarn.lock -> Not found", Event.lineBreak] }
    else
      { val := { run := true, sha := "",
                 err := some ("unable to read yarn.lock file: " ++ err.msg) },
        state := s, trace := t0 }
  | Except.ok _ =>
    let t1 := t0 ++ [Event.action "yarn.lock -> Found"]
    match ParseYarnrcYml sys s workingDir with
    | Except.error err =>
      { val := { run := true, sha := "", err := some ("failed to parse .yarnrc.yml: " ++ err) },
        state := s, trace := t1 }
    | Except.ok yarnrcConfig =>
      let usesNodeModules := ShouldUseNodeModules workingDir yarnrcConfig
      let t2 := t1 ++ [Event.action ("Uses node_modules -> " ++ fmtBool usesNodeModules)]
      if usesNodeModules then
        (shouldRunForNodeModules sys s workingDir metadata).after t2
      else
        (shouldRunForPnP sys s workingDir yarnrcConfig metadata).after t2

/-- The method `setupNodeModules` of `berry_install_process.go`: `error` is
the result `("", err)`. -/
def setupNodeModules {σ : Type} (sys : Sys σ) (s : σ)
    (workingDir currentModulesLayerPath nextModulesLayerPath : String) :
    Ran (Except String String) σ :=
  if currentModulesLayerPath ≠ "" then
    match sys.copy s (sys.join currentModulesLayerPath "node_modules")
            (sys.join nextModulesLayerPath "node_modules") with
    | Except.error err =>
      { val := Except.error ("failed to copy node_modules directory: " ++ err),
        state := s, trace := [] }
    | Except.ok s1 => { val := Except.ok nextModulesLayerPath, state := s1, trace := [] }
  else
    let statted : Except String (Option FileInfo) :=
      match sys.lstat s (sys.join workingDir "node_modules") with
      | Except.error err =>
        if !err.notExist then
          Except.error ("failed to stat node_modules directory: " ++ err.msg)
        else Except.ok none
      | Except.ok file => Except.ok (some file)
    match statted with
    | Except.error err => { val := Except.error err, state := s, trace := [] }
    | Except.ok file =>
      let removed : Except String σ :=
        match file with
        | some fi =>
          if fi.isSymlink then sys.removeAll s (sys.join workingDir "node_modules")
          else Except.ok s
        | none => Except.ok s
      match removed with
      | Except.error err =>
        { val := Except.error ("failed to remove node_modules symlink: " ++ err),
          state := s, trace := [] }
      | Except.ok s1 =>
        match sys.mkdirAll s1 (sys.join workingDir "node_modules") with
        | Except.error err =>
          { val := Except.error ("failed to create node_modules directory: " ++ err),
            state := s1, trace := [] }
        | Except.ok s2 =>
          match sys.move s2 (sys.join workingDir "node_modules")
                  (sys.join nextModulesLayerPath "node_modules") with
          | Except.error err =>
            { val := Except.error
                ("failed to move node_modules directory to layer: " ++ err),
              state := s2, trace := [] }
          | Except.ok s3 =>
            match sys.symlink s3 (sys.join nextModulesLayerPath "node_modules")
                    (sys.join workingDir "node_modules") with
            | Except.error err =>
              { val := Except.error
                  ("failed to symlink node_modules into working directory: " ++ err),
                state := s3, trace := [] }
            | Except.ok s4 =>
              { val := Except.ok nextModulesLayerPath, state := s4, trace := [] }

/-- The method `SetupModules` of `berry_install_process.go`. -/
def SetupModules {σ : Type} (sys : Sys σ) (s : σ)
    (workingDir currentModulesLayerPath nextModulesLayerPath : String) :
    Ran (Except String String) σ :=
  match ParseYarnrcYml sys s workingDir with
  | Except.error err =>
    { val := Except.error ("failed to parse .yarnrc.yml: " ++ err), state := s, trace := [] }
  | Except.ok yarnrcConfig =>
    let usesNodeModules := ShouldUseNodeModules workingDir yarnrcConfig
    if usesNodeModules then
      setupNodeModules sys s workingDir currentModulesLayerPath nextModulesLayerPath
    else
      { val := Except.ok nextModulesLayerPath, state := s, trace := [] }

/-- The method `executeNodeModulesInstall` of `berry_install_process.go`. -/
def executeNodeModulesInstall {σ : Type} (sys : Sys σ) (s : σ)
    (workingDir modulesLayerPath : String) (launch : Bool) (config : Option YarnrcConfig) :
    Ran (Option String) σ :=
  let environment := sys.environ s
  let environment := environment ++
    ["PATH=" ++ sys.getenv s "PATH" ++ String.singleton sys.pathListSeparator
      ++ sys.join "node_modules" ".bin"]
  let installArgs := ["install", "--ignore-engines"]
  let installArgs :=
    match config with
    | none => installArgs ++ ["--immutable"]
    | some c =>
      match c.EnableImmutableInstalls with
      | none => installArgs ++ ["--immutable"]
      | some b => if b then installArgs ++ ["--immutable"] else installArgs
  let installArgs := if !launch then installArgs ++ ["--production", "false"] else installArgs
  let installArgs := installArgs ++
    ["--modules-folder", sys.join modulesLayerPath "node_modules"]
  let t0 := [Event.subprocess ("Running 'yarn " ++ " ".intercalate installArgs ++ "'")]
  let e : Execution := { Args := installArgs, Env := environment, Dir := workingDir }
  let r := sys.execute s e
  let t1 := t0 ++ [Event.exec e, Event.actionWriter r.output]
  match r.err with
  | some err =>
    { val := some ("failed to execute yarn install: " ++ err), state := r.state, trace := t1 }
  | none => { val := none, state := r.state, trace := t1 }

/-- The method `executePnPInstall` of `berry_install_process.go`. -/
def executePnPInstall {σ : Type} (sys : Sys σ) (s : σ)
    (workingDir modulesLayerPath : String) (launch : Bool) (config : Option YarnrcConfig) :
    Ran (Option String) σ :=
  let environment := sys.environ s
  let cacheDir := sys.join modulesLayerPath "cache"
  let environment := environment ++ ["YARN_CACHE_FOLDER=" ++ cacheDir]
  match sys.mkdirAll s cacheDir with
  | Except.error err =>
    { val := some ("failed to create cache directory: " ++ err), state := s, trace := [] }
  | Except.ok s1 =>
    let installArgs := ["install", "--ignore-engines"]
    let installArgs :=
      match config with
      | none => installArgs ++ ["--immutable"]
      | some c =>
        match c.EnableImmutableInstalls with
        | none => installArgs ++ ["--immutable"]
        | some b => if b then installArgs ++ ["--immutable"] else installArgs
    let installArgs := if !launch then installArgs ++ ["--production", "false"] else installArgs
    let t0 := [Event.subprocess
      ("Running 'yarn " ++ " ".intercalate installArgs ++ "' (PnP)")]
    let e : Execution := { Args := installArgs, Env := environment, Dir := workingDir }
    let r := sys.execute s1 e
    let t1 := t0 ++ [Event.exec e, Event.actionWriter r.output]
    match r.err with
    | some err =>
      { val := some ("failed to execute yarn install (PnP): " ++ err), state := r.state,
        trace := t1 }
    | none => { val := none, state := r.state, trace := t1 }

/-- The method `Execute` of `berry_install_process.go`. -/
def Execute {σ : Type} (sys : Sys σ) (s : σ) (workingDir modulesLayerPath : String)
    (launch : Bool) : Ran (Option String) σ :=
  match ParseYarnrcYml sys s workingDir with
  | Except.error err =>
    { val := some ("failed to parse .yarnrc.yml: " ++ err), state := s, trace := [] }
  | Except.ok yarnrcConfig =>
    let usesNodeModules := ShouldUseNodeModules workingDir yarnrcConfig
    if usesNodeModules then
      executeNodeModulesInstall sys s workingDir modulesLayerPath launch yarnrcConfig
    else
      executePnPInstall sys s workingDir modulesLayerPath launch yarnrcConfig

/-! ## detect.go -/

/-- The struct `BuildPlanMetadata` of `detect.go`. -/
structure BuildPlanMetadata where
  Version : String
  VersionSource : String
  Build : Bool
  deriving DecidableEq, Repr

/-- A `packit.BuildPlanRequirement`. -/
structure BuildPlanRequirement where
  Name : String
  Metadata : BuildPlanMetadata
  deriving DecidableEq, Repr

/-- A `packit.BuildPlan`: the names provided and the requirements. -/
structure BuildPlan where
  Provides : List String
  Requires : List BuildPlanRequirement
  deriving DecidableEq, Repr

/-- An error of the detect phase: `packit.Fail` with a message, or another error. -/
inductive DetectError where
  | fail (msg : String)
  | other (msg : String)
  deriving DecidableEq, Repr

/-- The detect function `Detect()` returns, applied to a working directory.
The one-element `filepath.Join(projectPath)` of the second failure message is
`join` with an empty second element. -/
def Detect {σ : Type} (sys : Sys σ) (s : σ) (workingDir : String) :
    Except DetectError BuildPlan :=
  match sys.findProjectPath s workingDir with
  | Except.error err => Except.error (DetectError.other err)
  | Except.ok projectPath =>
    match ParseYarnrcYml sys s projectPath with
    | Except.error err => Except.error (DetectError.other err)
    | Except.ok yarnrcConfig =>
      let hasYarnrcYml := yarnrcConfig.isSome
      match sys.fsExists s (sys.join projectPath YarnLock) with
      | Except.error err => Except.error (DetectError.other err)
      | Except.ok hasYarnLock =>
        if !hasYarnrcYml && !hasYarnLock then
          Except.error (DetectError.fail
            ("no '" ++ YarnrcYml ++ "' or '" ++ YarnLock
              ++ "' file found in the project path " ++ projectPath))
        else
          let provisionType := DetermineProvisionType projectPath yarnrcConfig
          match sys.parsePackageJSON s projectPath with
          | Except.error err =>
            if err.notExist then
              Except.error (DetectError.fail
                ("no 'package.json' found in project path " ++ sys.join projectPath ""))
            else Except.error (DetectError.other err.msg)
          | Except.ok nodeVersion =>
            let nodeRequirement : BuildPlanRequirement :=
              { Name := PlanDependencyNode,
                Metadata := { Version := "", VersionSource := "", Build := true } }
            let nodeRequirement : BuildPlanRequirement :=
              if nodeVersion ≠ "" then
                { nodeRequirement with
                  Metadata := { Version := nodeVersion, VersionSource := "package.json",
                                Build := true } }
              else nodeRequirement
            Except.ok
              { Provides := [provisionType],
                Requires := [nodeRequirement,
                  { Name := PlanDependencyYarn,
                    Metadata := { Version := "", VersionSource := "", Build := true } }] }

/-! ## A sample machine

A small concrete instance of `Sys`, on which the procedures above can be
evaluated: files, directories and symbolic links are listed by path, the
package manager is a table of answers. -/

/-- The state of the sample machine. -/
structure Machine where
  /-- Regular files, with their contents. -/
  files : List (String × String)
  /-- Directories. -/
  dirs : List String
  /-- Symbolic links, with their targets. -/
  links : List (String × String)
  /-- The process environment. -/
  env : List (String × String)
  /-- What `yarn info --all --json` prints, or `none` when it fails. -/
  yarnInfo : Option String
  /-- Whether `yarn install` fails. -/
  installFails : Bool
  /-- Paths on which `stat` fails with an error other than absence. -/
  denied : List String
  /-- The number of temporary files created so far. -/
  temps : Nat
  deriving DecidableEq, Repr

namespace Machine

/-- Whether `pre` followed by a slash starts `path`. -/
def under (pre path : String) : Bool :=
  (pre.data ++ ['/']).isPrefixOf path.data

/-- The path `path` with its leading `src` replaced by `dst`. -/
def rebase (src dst path : String) : String :=
  String.mk (dst.data ++ path.data.drop src.data.length)

/-- Joining of two clean path elements, as `filepath.Join` does on them. -/
def join (a b : String) : String :=
  if a = "" then b else if b = "" then a else a ++ "/" ++ b

/-- Whether a regular file or directory is at `path`. -/
def hasNode (m : Machine) (path : String) : Bool :=
  (m.files.lookup path).isSome || m.dirs.contains path

/-- The sample `os.Lstat`. -/
def lstat (m : Machine) (path : String) : Except OsError FileInfo :=
  if m.denied.contains path then
    Except.error { notExist := false, msg := "lstat " ++ path ++ ": permission denied" }
  else if (m.links.lookup path).isSome then
    Except.ok { isSymlink := true, isDir := false }
  else if m.dirs.contains path then Except.ok { isSymlink := false, isDir := true }
  else if (m.files.lookup path).isSome then Except.ok { isSymlink := false, isDir := false }
  else Except.error { notExist := true, msg := "lstat " ++ path ++ ": no such file or directory" }

/-- The sample `os.Stat`: a link is followed once. -/
def stat (m : Machine) (path : String) : Except OsError FileInfo :=
  if m.denied.contains path then
    Except.error { notExist := false, msg := "stat " ++ path ++ ": permission denied" }
  else
    let real := match m.links.lookup path with
      | some target => target
      | none => path
    if m.dirs.contains real then Except.ok { isSymlink := false, isDir := true }
    else if (m.files.lookup real).isSome then Except.ok { isSymlink := false, isDir := false }
    else Except.error { notExist := true, msg := "stat " ++ path ++ ": no such file or directory" }

/-- The sample `os.ReadFile`. -/
def readFile (m : Machine) (path : String) : Except OsError String :=
  if m.denied.contains path then
    Except.error { notExist := false, msg := "open " ++ path ++ ": permission denied" }
  else
    match m.files.lookup path with
    | some data => Except.ok data
    | none =>
      if m.dirs.contains path then
        Except.error { notExist := false, msg := "read " ++ path ++ ": is a directory" }
      else
        Except.error { notExist := true, msg := "open " ++ path ++ ": no such file or directory" }

/-- A sample of `yaml.Unmarshal` into a `YarnrcConfig`: the documents listed
decode as YAML does; the unterminated flow sequence is malformed YAML, and no
other document is used. -/
def unmarshal (data : String) : Except String YarnrcConfig :=
  if data = "" then Except.ok YarnrcConfig.zero
  else if data = "nodeLinker: pnp\n" then
    Except.ok { YarnrcConfig.zero with NodeLinker := "pnp" }
  else if data = "nodeLinker: node-modules\n" then
    Except.ok { YarnrcConfig.zero with NodeLinker := "node-modules" }
  else if data = "nodeLinker: pnpm\n" then
    Except.ok { YarnrcConfig.zero with NodeLinker := "pnpm" }
  else if data = "nodeLinker: pnp\ncacheFolder: custom-cache\n" then
    Except.ok { YarnrcConfig.zero with NodeLinker := "pnp", CacheFolder := "custom-cache" }
  else if data = "nodeLinker: node-modules\nenableImmutableInstalls: false\n" then
    Except.ok { YarnrcConfig.zero with
      NodeLinker := "node-modules", EnableImmutableInstalls := some false }
  else if data = "nodeLinker: pnp\nenableImmutableInstalls: false\n" then
    Except.ok { YarnrcConfig.zero with
      NodeLinker := "pnp", EnableImmutableInstalls := some false }
  else Except.error "yaml: line 1: did not find expected node content"

/-- The sample `os.Getenv`. -/
def getenv (m : Machine) (key : String) : String :=
  (m.env.lookup key).getD ""

/-- The sample `os.Environ`. -/
def environ (m : Machine) : List String :=
  m.env.map (fun kv => kv.1 ++ "=" ++ kv.2)

/-- The sample `os.CreateTemp`: a fresh empty file under the temporary directory. -/
def createTemp (m : Machine) (dir pattern : String) : Except String (String × Machine) :=
  let name := join (if dir = "" then "/tmp" else dir)
    (pattern ++ String.mk (List.replicate (m.temps + 1) '0'))
  Except.ok (name, { m with files := (name, "") :: m.files, temps := m.temps + 1 })

/-- The sample `file.Write`. -/
def write (m : Machine) (name data : String) : Except String Machine :=
  match m.files.lookup name with
  | some old =>
    Except.ok { m with files := (name, old ++ data) :: m.files.filter (fun f => f.1 ≠ name) }
  | none => Except.error ("write " ++ name ++ ": file already closed")

/-- The sample checksum: the contents of the files, each closed by a newline. -/
def sum (m : Machine) (paths : List String) : Except String String :=
  match paths with
  | [] => Except.ok ""
  | path :: rest =>
    match m.files.lookup path with
    | none => Except.error ("failed to calculate checksum: open " ++ path)
    | some data =>
      match sum m rest with
      | Except.error err => Except.error err
      | Except.ok tail => Except.ok (data ++ "\n" ++ tail)

/-- The sample package manager. -/
def execute (m : Machine) (e : Execution) : ExecResult Machine :=
  if e.Args.head? = some "info" then
    match m.yarnInfo with
    | some out => { err := none, output := out, state := m }
    | none => { err := some "exit status 1", output := "Usage Error", state := m }
  else if m.installFails then
    { err := some "exit status 1", output := "YN0028: The lockfile would have been modified",
      state := m }
  else { err := none, output := "Done", state := m }

/-- The sample `os.RemoveAll`: the path and everything under it. -/
def removeAll (m : Machine) (path : String) : Except String Machine :=
  let keep : String → Bool := fun q => q ≠ path && !under path q
  Except.ok { m with
    files := m.files.filter (fun f => keep f.1),
    dirs := m.dirs.filter keep,
    links := m.links.filter (fun l => keep l.1) }

/-- The sample `os.MkdirAll`. -/
def mkdirAll (m : Machine) (path : String) : Except String Machine :=
  if (m.files.lookup path).isSome then
    Except.error ("mkdir " ++ path ++ ": not a directory")
  else if m.dirs.contains path || (m.links.lookup path).isSome then Except.ok m
  else Except.ok { m with dirs := path :: m.dirs }

/-- The sample `os.Symlink`. -/
def symlink (m : Machine) (oldname newname : String) : Except String Machine :=
  if m.hasNode newname || (m.links.lookup newname).isSome then
    Except.error ("symlink " ++ oldname ++ " " ++ newname ++ ": file exists")
  else Except.ok { m with links := (newname, oldname) :: m.links }

/-- The sample `fs.Copy`: the destination is cleared, then the source tree is
reproduced under it. -/
def copy (m : Machine) (source destination : String) : Except String Machine :=
  match removeAll m destination with
  | Except.error err => Except.error err
  | Except.ok m1 =>
    if !(m1.hasNode source) then
      Except.error ("stat " ++ source ++ ": no such file or directory")
    else
      let inTree : String → Bool := fun q => q = source || under source q
      Except.ok { m1 with
        files := (m1.files.filter (fun f => inTree f.1)).map
            (fun f => (rebase source destination f.1, f.2)) ++ m1.files,
        dirs := (m1.dirs.filter inTree).map (rebase source destination) ++ m1.dirs,
        links := (m1.links.filter (fun l => inTree l.1)).map
            (fun l => (rebase source destination l.1, l.2)) ++ m1.links }

/-- The sample `fs.Move`: a copy, then the source is removed. -/
def move (m : Machine) (source destination : String) : Except String Machine :=
  match copy m source destination with
  | Except.error err => Except.error err
  | Except.ok m1 => removeAll m1 source

/-- The sample machine as a `Sys`. -/
def sys : Sys Machine where
  join := join
  pathListSeparator := ':'
  stat := stat
  lstat := lstat
  readFile := readFile
  unmarshal := unmarshal
  getenv := getenv
  environ := environ
  createTemp := createTemp
  write := write
  sum := sum
  execute := execute
  removeAll := removeAll
  mkdirAll := mkdirAll
  symlink := symlink
  copy := copy
  move := move
  findProjectPath := fun _ workingDir => Except.ok workingDir
  fsExists := fun m path => Except.ok (m.hasNode path)
  parsePackageJSON := fun m path =>
    match m.files.lookup (join path "package.json") with
    | some _ => Except.ok ""
    | none => Except.error
        { notExist := true, msg := "open " ++ join path "package.json" ++ ": no such file" }

end Machine

/-- A metadata map with no entry. -/
def Metadata.empty : Metadata := fun _ => none

/-! ## Sample projects -/

/-- A lock file and a manifest, no configuration file: flat-directory mode. -/
def flatProject : Machine :=
  { files := [("/workspace/yarn.lock", "# yarn lockfile v1\n"),
              ("/workspace/package.json", "\x7b\x7d")],
    dirs := ["/workspace", "/tmp"],
    links := [],
    env := [("PATH", "/usr/bin"), ("NODE_ENV", "production")],
    yarnInfo := some "left-pad@npm:1.3.0\n",
    installFails := false,
    denied := [],
    temps := 0 }

/-- A plug-and-play project with its manifest and its local cache in place. -/
def pnpProject : Machine :=
  { files := [("/workspace/yarn.lock", "__metadata:\n  version: 8\n"),
              ("/workspace/package.json", "\x7b\x7d"),
              ("/workspace/.yarnrc.yml", "nodeLinker: pnp\n"),
              ("/workspace/.pnp.cjs", "/* pnp */")],
    dirs := ["/workspace", "/workspace/.yarn", "/workspace/.yarn/cache", "/tmp"],
    links := [],
    env := [("PATH", "/usr/bin")],
    yarnInfo := some "left-pad@npm:1.3.0\n",
    installFails := false,
    denied := [],
    temps := 0 }

/-- A project whose configuration file is an unterminated flow sequence, and
which has no lock file. -/
def malformedProject : Machine :=
  { files := [("/workspace/package.json", "\x7b\x7d"),
              ("/workspace/.yarnrc.yml", "nodeLinker: [pnp")],
    dirs := ["/workspace", "/tmp"],
    links := [],
    env := [("PATH", "/usr/bin")],
    yarnInfo := some "",
    installFails := false,
    denied := [],
    temps := 0 }

/-- The sample project in which the introspection call fails. -/
def brokenInfoProject : Machine :=
  { flatProject with yarnInfo := none }

/-- The argument vector of `yarn install` in the words of the specification:
the base command, the immutable flag unless explicitly disabled, the
development dependencies unless this is a launch build, and the modules
folder in flat-directory mode only. -/
def installArgsSpec (join : String → String → String) (config : Option YarnrcConfig)
    (launch : Bool) (layerPath : String) : List String :=
  ["install", "--ignore-engines"]
    ++ (if (config.bind (fun c => c.EnableImmutableInstalls)) = some false then []
        else ["--immutable"])
    ++ (if launch = false then ["--production", "false"] else [])
    ++ (if DetermineProvisionType "" config = "node_modules" then
          ["--modules-folder", join layerPath "node_modules"]
        else [])

/-- The bytes `shouldRunForNodeModules` writes to its temporary file and so
hands to the checksum: the buffer with the output of the introspection call,
after `buffer.WriteString(nodeEnv)`. -/
def probeContent (output nodeEnv : String) : String := output ++ nodeEnv

/-- The flat sample project with introspection output `ab` and `NODE_ENV=c`. -/
def probeProjectA : Machine :=
  { flatProject with yarnInfo := some "ab", env := [("PATH", "/usr/bin"), ("NODE_ENV", "c")] }

/-- The flat sample project with introspection output `a` and `NODE_ENV=bc`. -/
def probeProjectB : Machine :=
  { flatProject with yarnInfo := some "a", env := [("PATH", "/usr/bin"), ("NODE_ENV", "bc")] }

/-! ## Laws of the file system

The procedures only sequence calls of `os` and of the packit `fs` package.
What such a sequence leaves on disk follows from what each call does; the
record `FsLaws` states that, for the calls `setupNodeModules` makes. -/

/-- What can be observed of a file system besides `os.Lstat`. -/
structure FsView (σ κ : Type) where
  /-- What lies below a path: the contents of the directory there. -/
  entries : σ → String → κ
  /-- The contents of an empty directory. -/
  empty : κ
  /-- The target of the symbolic link at a path. -/
  target : σ → String → Option String
  /-- Two distinct paths neither of which lies below the other. -/
  apart : String → String → Prop

/-- What the file-system calls do, as far as `setupNodeModules` relies on it. -/
structure FsLaws {σ κ : Type} (sys : Sys σ) (view : FsView σ κ) : Prop where
  /-- After `os.RemoveAll` the path is absent and nothing lies below it. -/
  removeAll_gone : ∀ (s s1 : σ) (path : String) (fi : FileInfo),
    sys.lstat s path = Except.ok fi → sys.removeAll s path = Except.ok s1 →
      (∃ e, sys.lstat s1 path = Except.error e ∧ e.notExist = true) ∧
      view.entries s1 path = view.empty
  /-- When `os.RemoveAll` removes a symbolic link, what lies below the paths
  apart from it, the target of the link among them, stays as it was. -/
  removeAll_link : ∀ (s s1 : σ) (path : String) (fi : FileInfo),
    sys.lstat s path = Except.ok fi → fi.isSymlink = true →
    sys.removeAll s path = Except.ok s1 →
      ∀ q, view.apart q path → view.entries s1 q = view.entries s q
  /-- On an absent path `os.MkdirAll` makes a directory and puts nothing in it. -/
  mkdirAll_absent : ∀ (s s1 : σ) (path : String) (e : OsError),
    sys.lstat s path = Except.error e → e.notExist = true →
    sys.mkdirAll s path = Except.ok s1 →
      sys.lstat s1 path = Except.ok { isSymlink := false, isDir := true } ∧
      view.entries s1 path = view.entries s path
  /-- On a path that exists and is no link, `os.MkdirAll` succeeds only without
  changing it. -/
  mkdirAll_present : ∀ (s s1 : σ) (path : String) (fi : FileInfo),
    sys.lstat s path = Except.ok fi → fi.isSymlink = false →
    sys.mkdirAll s path = Except.ok s1 →
      sys.lstat s1 path = Except.ok fi ∧ view.entries s1 path = view.entries s path
  /-- After `fs.Move` the source is absent. -/
  move_gone : ∀ (s s1 : σ) (source destination : String) (fi : FileInfo),
    sys.lstat s source = Except.ok fi → fi.isSymlink = false →
    sys.move s source destination = Except.ok s1 →
      ∃ e, sys.lstat s1 source = Except.error e ∧ e.notExist = true
  /-- After `fs.Move` the destination holds what the source held. -/
  move_tree : ∀ (s s1 : σ) (source destination : String) (fi : FileInfo),
    sys.lstat s source = Except.ok fi → fi.isSymlink = false →
    view.apart destination source →
    sys.move s source destination = Except.ok s1 →
      view.entries s1 destination = view.entries s source
  /-- On an absent path `os.Symlink` makes a symbolic link to `oldname`. -/
  symlink_made : ∀ (s s1 : σ) (oldname newname : String) (e : OsError),
    sys.lstat s newname = Except.error e → e.notExist = true →
    sys.symlink s oldname newname = Except.ok s1 →
      sys.lstat s1 newname = Except.ok { isSymlink := true, isDir := false } ∧
      view.target s1 newname = some oldname
  /-- A new symbolic link changes nothing below the paths apart from it. -/
  symlink_frame : ∀ (s s1 : σ) (oldname newname : String),
    sys.symlink s oldname newname = Except.ok s1 →
      ∀ q, view.apart q newname → view.entries s1 q = view.entries s q

/-- What lies below a directory of the sample machine: the files, directories
and links under it, each by its path from that directory on. -/
structure Tree where
  files : List (String × String)
  dirs : List String
  links : List (String × String)
  deriving DecidableEq, Repr

namespace Machine

/-- The path `path` from the directory `root` on. -/
def relative (root path : String) : String :=
  String.mk (path.data.drop root.data.length)

/-- What lies below `root` in the sample machine. -/
def entries (m : Machine) (root : String) : Tree :=
  { files := (m.files.filter (fun f => under root f.1)).map
      (fun f => (relative root f.1, f.2)),
    dirs := (m.dirs.filter (fun d => under root d)).map (relative root),
    links := (m.links.filter (fun l => under root l.1)).map
      (fun l => (relative root l.1, l.2)) }

/-- The observations of the sample machine. -/
def view : FsView Machine Tree where
  entries := entries
  empty := { files := [], dirs := [], links := [] }
  target := fun m path => m.links.lookup path
  apart := fun p q => p ≠ q ∧ under p q = false ∧ under q p = false

end Machine

/-- The flat sample project after a raw install: a real `node_modules`
directory in the project root, and a layer left by an earlier build. -/
def installedProject : Machine :=
  { flatProject with
    files := [("/workspace/yarn.lock", "# yarn lockfile v1\n"),
              ("/workspace/package.json", "\x7b\x7d"),
              ("/workspace/node_modules/left-pad/index.js", "module.exports = leftPad"),
              ("/layers/yarn/current/node_modules/left-pad/index.js", "module.exports = old")],
    dirs := ["/workspace", "/tmp", "/workspace/node_modules",
             "/workspace/node_modules/left-pad", "/layers/yarn/current",
             "/layers/yarn/current/node_modules", "/layers/yarn/current/node_modules/left-pad",
             "/layers/yarn/next"] }

/-- The flat sample project with a symbolic link left in the project root by
an earlier build. -/
def relinkedProject : Machine :=
  { flatProject with
    files := [("/workspace/yarn.lock", "# yarn lockfile v1\n"),
              ("/workspace/package.json", "\x7b\x7d"),
              ("/layers/yarn/current/node_modules/left-pad/index.js", "module.exports = old")],
    dirs := ["/workspace", "/tmp", "/layers/yarn/current",
             "/layers/yarn/current/node_modules", "/layers/yarn/current/node_modules/left-pad",
             "/layers/yarn/next"],
    links := [("/workspace/node_modules", "/layers/yarn/current/node_modules")] }

/-! ## The linking mode -/

/-- C1: `DetermineProvisionType`, and with it `ShouldUseNodeModules`, does not
depend on the project path; it answers `"yarn_pkgs"` exactly for a present
configuration whose `NodeLinker` is `""` or `"pnp"`, and `"node_modules"` for
an absent configuration, for `"node-modules"`, for `"pnpm"` and for every
other linker; so an absent and a present but empty configuration differ. -/
theorem determineProvisionType_table :
    (∀ (p q : String) (cfg : Option YarnrcConfig),
        DetermineProvisionType p cfg = DetermineProvisionType q cfg ∧
        ShouldUseNodeModules p cfg = ShouldUseNodeModules q cfg) ∧
    (∀ (p : String) (cfg : Option YarnrcConfig),
        DetermineProvisionType p cfg =
          match cfg with
          | none => "node_modules"
          | some c =>
            if c.NodeLinker = "" ∨ c.NodeLinker = "pnp" then "yarn_pkgs" else "node_modules") ∧
    (∀ (p : String) (cfg : Option YarnrcConfig),
        DetermineProvisionType p cfg = "yarn_pkgs" ↔
          ∃ c, cfg = some c ∧ (c.NodeLinker = "" ∨ c.NodeLinker = "pnp")) ∧
    (∀ (p : String) (cfg : Option YarnrcConfig),
        ShouldUseNodeModules p cfg = true ↔
          ¬ ∃ c, cfg = some c ∧ (c.NodeLinker = "" ∨ c.NodeLinker = "pnp")) ∧
    (∀ (p : String) (c : YarnrcConfig),
        DetermineProvisionType p (some { c with NodeLinker := "node-modules" }) = "node_modules" ∧
        DetermineProvisionType p (some { c with NodeLinker := "pnpm" }) = "node_modules") ∧
    (∀ p : String,
        DetermineProvisionType p none = "node_modules" ∧
        DetermineProvisionType p (some YarnrcConfig.zero) = "yarn_pkgs" ∧
        DetermineProvisionType p none ≠ DetermineProvisionType p (some YarnrcConfig.zero)) := by
  have table : ∀ (p : String) (cfg : Option YarnrcConfig),
      DetermineProvisionType p cfg =
        match cfg with
        | none => "node_modules"
        | some c =>
          if c.NodeLinker = "" ∨ c.NodeLinker = "pnp" then "yarn_pkgs" else "node_modules" := by
    intro p cfg
    cases cfg with
    | none => rfl
    | some c =>
      simp only [DetermineProvisionType, NodeLinkerNodeModules, NodeLinkerPnpm, NodeLinkerPnP,
        PlanDependencyNodeModules, PlanDependencyYarnPkgs]
      by_cases h1 : c.NodeLinker = "node-modules"
      · simp [h1]
      · by_cases h2 : c.NodeLinker = "pnpm"
        · simp [h2]
        · by_cases h3 : c.NodeLinker = "pnp"
          · simp [h3]
          · by_cases h4 : c.NodeLinker = ""
            · simp [h4]
            · simp [h1, h2, h3, h4]
  have pkgs : ∀ (p : String) (cfg : Option YarnrcConfig),
      DetermineProvisionType p cfg = "yarn_pkgs" ↔
        ∃ c, cfg = some c ∧ (c.NodeLinker = "" ∨ c.NodeLinker = "pnp") := by
    intro p cfg
    rw [table p cfg]
    cases cfg with
    | none => simp
    | some c =>
      by_cases h : c.NodeLinker = "" ∨ c.NodeLinker = "pnp"
      · simp [h]
      · simp [h]
  refine ⟨?_, table, pkgs, ?_, ?_, ?_⟩
  · intro p q cfg
    simp only [ShouldUseNodeModules]
    rw [table p cfg, table q cfg]
    exact ⟨rfl, rfl⟩
  · intro p cfg
    rw [← pkgs p cfg]
    simp only [ShouldUseNodeModules, PlanDependencyNodeModules, beq_iff_eq]
    rw [table p cfg]
    cases cfg with
    | none => simp
    | some c =>
      by_cases h : c.NodeLinker = "" ∨ c.NodeLinker = "pnp"
      · simp [h]
      · simp [h]
  · intro p c
    rw [table, table]
    simp
  · intro p
    rw [table, table]
    simp [YarnrcConfig.zero]

/-! ## The cache-validity oracle -/

theorem assertString_eq_some (m : Metadata) (k v : String) :
    m.assertString k = some v ↔ m k = some (GoValue.str v) := by
  unfold Metadata.assertString
  split
  · next s h => simp [h]
  · next h =>
    constructor
    · intro h1; cases h1
    · intro h1; exact absurd h1 (h v)

theorem shouldUse_of_provision (dir : String) (cfg : Option YarnrcConfig) :
    ShouldUseNodeModules dir cfg = true ↔ DetermineProvisionType dir cfg = "node_modules" := by
  simp [ShouldUseNodeModules, PlanDependencyNodeModules]

theorem shouldRun_of_config {σ : Type} (sys : Sys σ) (s : σ) (dir : String) (metadata : Metadata)
    (lockInfo : FileInfo) (cfg : Option YarnrcConfig)
    (hlock : sys.stat s (sys.join dir "yarn.lock") = Except.ok lockInfo)
    (hcfg : ParseYarnrcYml sys s dir = Except.ok cfg) :
    ShouldRun sys s dir metadata =
      (if ShouldUseNodeModules dir cfg then shouldRunForNodeModules sys s dir metadata
       else shouldRunForPnP sys s dir cfg metadata).after
        [Event.subprocess "Process inputs (Berry):", Event.action "yarn.lock -> Found",
         Event.action ("Uses node_modules -> " ++ fmtBool (ShouldUseNodeModules dir cfg))] := by
  unfold ShouldRun
  simp only [YarnLock, hlock, hcfg]
  split <;> rfl

theorem nodeModules_compare {σ : Type} (sys : Sys σ) (s : σ) (dir : String)
    (metadata : Metadata) (fileName : String) (s1 s2 : σ) (fp : String)
    (hinfo : (sys.execute s
      { Args := ["info", "--all", "--json"], Env := [], Dir := dir }).err = none)
    (htemp : sys.createTemp (sys.execute s
      { Args := ["info", "--all", "--json"], Env := [], Dir := dir }).state
        "" "berry-config-file" = Except.ok (fileName, s1))
    (hwrite : sys.write s1 fileName
      ((sys.execute s { Args := ["info", "--all", "--json"], Env := [], Dir := dir }).output
        ++ sys.getenv (sys.execute s
            { Args := ["info", "--all", "--json"], Env := [], Dir := dir }).state "NODE_ENV")
      = Except.ok s2)
    (hsum : sys.sum s2 [sys.join dir "yarn.lock", sys.join dir "package.json", fileName]
      = Except.ok fp) :
    (shouldRunForNodeModules sys s dir metadata).val =
      if metadata "cache_sha" = some (GoValue.str fp) then
        { run := false, sha := "", err := none }
      else { run := true, sha := fp, err := none } := by
  unfold shouldRunForNodeModules
  simp only [YarnLock, hinfo, htemp, hwrite, hsum]
  by_cases h : metadata "cache_sha" = some (GoValue.str fp)
  · have h1 := (assertString_eq_some metadata "cache_sha" fp).2 h
    simp [h1, h]
  · rw [if_neg h]
    cases hm : metadata.assertString "cache_sha" with
    | none => simp
    | some prev =>
      have hne : fp ≠ prev := by
        intro heq
        subst heq
        exact h ((assertString_eq_some metadata "cache_sha" fp).1 hm)
      simp [hne]

theorem after_val {α σ : Type} (earlier : List Event) (r : Ran α σ) :
    (r.after earlier).val = r.val := rfl

theorem after_trace {α σ : Type} (earlier : List Event) (r : Ran α σ) :
    (r.after earlier).trace = earlier ++ r.trace := rfl

/-- C2: in flat-directory mode, with the lock file present, the introspection
call, the probe file and the checksum succeeding with fingerprint `fp`,
`ShouldRun` answers `(false, "", nil)` exactly when the previous metadata
holds the string `fp` under `cache_sha`, and `(true, fp, nil)` in every
other case (no entry, an entry that is not a string, another string). -/
theorem shouldRun_flat_compares_cache_sha {σ : Type} (sys : Sys σ) (s : σ) (dir : String)
    (metadata : Metadata) (lockInfo : FileInfo) (cfg : Option YarnrcConfig)
    (fileName : String) (s1 s2 : σ) (fp : String)
    (hlock : sys.stat s (sys.join dir "yarn.lock") = Except.ok lockInfo)
    (hcfg : ParseYarnrcYml sys s dir = Except.ok cfg)
    (hflat : DetermineProvisionType dir cfg = "node_modules")
    (hinfo : (sys.execute s
      { Args := ["info", "--all", "--json"], Env := [], Dir := dir }).err = none)
    (htemp : sys.createTemp (sys.execute s
      { Args := ["info", "--all", "--json"], Env := [], Dir := dir }).state
        "" "berry-config-file" = Except.ok (fileName, s1))
    (hwrite : sys.write s1 fileName
      ((sys.execute s { Args := ["info", "--all", "--json"], Env := [], Dir := dir }).output
        ++ sys.getenv (sys.execute s
            { Args := ["info", "--all", "--json"], Env := [], Dir := dir }).state "NODE_ENV")
      = Except.ok s2)
    (hsum : sys.sum s2 [sys.join dir "yarn.lock", sys.join dir "package.json", fileName]
      = Except.ok fp) :
    ((ShouldRun sys s dir metadata).val = { run := false, sha := "", err := none } ↔
      metadata "cache_sha" = some (GoValue.str fp)) ∧
    ((ShouldRun sys s dir metadata).val = { run := true, sha := fp, err := none } ↔
      metadata "cache_sha" ≠ some (GoValue.str fp)) := by
  have huse := (shouldUse_of_provision dir cfg).2 hflat
  rw [shouldRun_of_config sys s dir metadata lockInfo cfg hlock hcfg, huse, if_pos rfl,
    after_val, nodeModules_compare sys s dir metadata fileName s1 s2 fp hinfo htemp hwrite hsum]
  by_cases h : metadata "cache_sha" = some (GoValue.str fp)
  · simp [h]
  · simp [h]

/-- The sample flat project, never built before, must run and gets the
fingerprint of its lock file, manifest and probe. -/
theorem shouldRun_flat_compares_cache_sha_witness :
    (ShouldRun Machine.sys flatProject "/workspace" Metadata.empty).val =
      { run := true,
        sha := "# yarn lockfile v1\n\n\x7b\x7d\nleft-pad@npm:1.3.0\nproduction\n",
        err := none } :=
  (shouldRun_flat_compares_cache_sha Machine.sys flatProject "/workspace" Metadata.empty
    { isSymlink := false, isDir := false } none "/tmp/berry-config-file0"
    { flatProject with
      files := ("/tmp/berry-config-file0", "") :: flatProject.files, temps := 1 }
    { flatProject with
      files := ("/tmp/berry-config-file0", "left-pad@npm:1.3.0\nproduction")
        :: flatProject.files, temps := 1 }
    "# yarn lockfile v1\n\n\x7b\x7d\nleft-pad@npm:1.3.0\nproduction\n"
    rfl rfl (by decide) rfl rfl rfl rfl).2.2
    (by simp [Metadata.empty])

theorem hasPnpFiles_true {σ : Type} (sys : Sys σ) (s : σ) (dir : String) :
    HasPnpFiles sys s dir = Except.ok true ↔
      ∃ info, sys.stat s (sys.join dir ".pnp.cjs") = Except.ok info := by
  unfold HasPnpFiles
  simp only [PnpCjs]
  cases h : sys.stat s (sys.join dir ".pnp.cjs") with
  | ok info => simp
  | error err => by_cases hn : err.notExist <;> simp [hn]

theorem hasYarnCache_true {σ : Type} (sys : Sys σ) (s : σ) (dir : String)
    (cfg : Option YarnrcConfig) :
    HasYarnCache sys s dir cfg = Except.ok true ↔
      ∃ info, sys.stat s (sys.join dir
        (match cfg with
         | some c => if c.CacheFolder ≠ "" then c.CacheFolder else ".yarn/cache"
         | none => ".yarn/cache")) = Except.ok info := by
  unfold HasYarnCache
  simp only []
  generalize (match cfg with
         | some c => if c.CacheFolder ≠ "" then c.CacheFolder else ".yarn/cache"
         | none => ".yarn/cache") = cacheDir
  cases h : sys.stat s (sys.join dir cacheDir) with
  | ok info => simp
  | error err => by_cases hn : err.notExist <;> simp [hn]

theorem pnp_run {σ : Type} (sys : Sys σ) (s : σ) (dir : String)
    (cfg : Option YarnrcConfig) (metadata : Metadata) :
    ((shouldRunForPnP sys s dir cfg metadata).val.run = false ↔
      cfg.isSome = true ∧ HasPnpFiles sys s dir = Except.ok true ∧
        HasYarnCache sys s dir cfg = Except.ok true) ∧
    (shouldRunForPnP sys s dir cfg metadata).val.sha = "" ∧
    (shouldRunForPnP sys s dir cfg metadata).state = s ∧
    (∀ e ∈ (shouldRunForPnP sys s dir cfg metadata).trace, e.isExec = false) := by
  unfold shouldRunForPnP
  cases hp : HasPnpFiles sys s dir with
  | error err => simp [Event.isExec]
  | ok hasPnp =>
    cases hc : HasYarnCache sys s dir cfg with
    | error err => simp [Event.isExec]
    | ok hasCache =>
      cases hasPnp <;> cases hasCache <;> cases hs : cfg.isSome <;> simp [Event.isExec, hs]

/-- C3: with the lock file present and a configuration selecting
plug-and-play, `ShouldRun` answers `run = false` exactly when the
configuration file, the `.pnp.cjs` manifest and the cache directory all
exist, the cache directory being the configured `cacheFolder` when that is
not empty and `.yarn/cache` otherwise, under the project root; otherwise
`run = true`. The fingerprint is empty either way, the package manager is
not invoked, and the answer is the same for every previous metadata. -/
theorem shouldRun_pnp_presence {σ : Type} (sys : Sys σ) (s : σ) (dir : String)
    (metadata : Metadata) (lockInfo : FileInfo) (cfg : Option YarnrcConfig)
    (hlock : sys.stat s (sys.join dir "yarn.lock") = Except.ok lockInfo)
    (hcfg : ParseYarnrcYml sys s dir = Except.ok cfg)
    (hpnp : DetermineProvisionType dir cfg = "yarn_pkgs") :
    ((ShouldRun sys s dir metadata).val.run = false ↔
      (∃ data, sys.readFile s (sys.join dir ".yarnrc.yml") = Except.ok data) ∧
      (∃ info, sys.stat s (sys.join dir ".pnp.cjs") = Except.ok info) ∧
      (∃ info, sys.stat s (sys.join dir
        (match cfg with
         | some c => if c.CacheFolder ≠ "" then c.CacheFolder else ".yarn/cache"
         | none => ".yarn/cache")) = Except.ok info)) ∧
    ((ShouldRun sys s dir metadata).val.run = true ↔
      ¬ ((∃ data, sys.readFile s (sys.join dir ".yarnrc.yml") = Except.ok data) ∧
         (∃ info, sys.stat s (sys.join dir ".pnp.cjs") = Except.ok info) ∧
         (∃ info, sys.stat s (sys.join dir
           (match cfg with
            | some c => if c.CacheFolder ≠ "" then c.CacheFolder else ".yarn/cache"
            | none => ".yarn/cache")) = Except.ok info))) ∧
    (ShouldRun sys s dir metadata).val.sha = "" ∧
    (∀ e ∈ (ShouldRun sys s dir metadata).trace, e.isExec = false) ∧
    (∀ other : Metadata, ShouldRun sys s dir other = ShouldRun sys s dir metadata) := by
  have hne : DetermineProvisionType dir cfg ≠ "node_modules" := by
    rw [hpnp]; decide
  have huse : ShouldUseNodeModules dir cfg = false := by
    cases h : ShouldUseNodeModules dir cfg with
    | false => rfl
    | true => exact absurd ((shouldUse_of_provision dir cfg).1 h) hne
  have hsome : cfg.isSome = true := by
    cases cfg with
    | none => exact absurd rfl hne
    | some c => rfl
  have hread : ∃ data, sys.readFile s (sys.join dir ".yarnrc.yml") = Except.ok data := by
    unfold ParseYarnrcYml at hcfg
    simp only [YarnrcYml] at hcfg
    cases hr : sys.readFile s (sys.join dir ".yarnrc.yml") with
    | ok data => exact ⟨data, rfl⟩
    | error err =>
      rw [hr] at hcfg
      by_cases hn : err.notExist
      · simp [hn] at hcfg
        subst hcfg
        simp at hsome
      · simp [hn] at hcfg
  have hrun := pnp_run sys s dir cfg metadata
  have key : (ShouldRun sys s dir metadata).val.run = false ↔
      (∃ data, sys.readFile s (sys.join dir ".yarnrc.yml") = Except.ok data) ∧
      (∃ info, sys.stat s (sys.join dir ".pnp.cjs") = Except.ok info) ∧
      (∃ info, sys.stat s (sys.join dir
        (match cfg with
         | some c => if c.CacheFolder ≠ "" then c.CacheFolder else ".yarn/cache"
         | none => ".yarn/cache")) = Except.ok info) := by
    rw [shouldRun_of_config sys s dir metadata lockInfo cfg hlock hcfg, huse, after_val]
    simp only [Bool.false_eq_true, if_false]
    rw [hrun.1, hasPnpFiles_true, hasYarnCache_true]
    simp [hsome, hread]
  refine ⟨key, ?_, ?_, ?_, ?_⟩
  · rw [← key]
    cases (ShouldRun sys s dir metadata).val.run <;> simp
  · rw [shouldRun_of_config sys s dir metadata lockInfo cfg hlock hcfg, huse, after_val]
    exact hrun.2.1
  · rw [shouldRun_of_config sys s dir metadata lockInfo cfg hlock hcfg, huse, after_trace]
    intro e he
    simp only [Bool.false_eq_true, if_false, List.mem_append] at he
    rcases he with he | he
    · simp at he
      rcases he with rfl | rfl | rfl <;> rfl
    · exact hrun.2.2.2 e he
  · intro other
    rw [shouldRun_of_config sys s dir metadata lockInfo cfg hlock hcfg,
      shouldRun_of_config sys s dir other lockInfo cfg hlock hcfg, huse]
    rfl

/-- The sample plug-and-play project, complete, is skipped. -/
theorem shouldRun_pnp_presence_witness :
    (ShouldRun Machine.sys pnpProject "/workspace" Metadata.empty).val.run = false :=
  (shouldRun_pnp_presence Machine.sys pnpProject "/workspace" Metadata.empty
    { isSymlink := false, isDir := false }
    (some { YarnrcConfig.zero with NodeLinker := "pnp" }) rfl rfl (by decide)).1.2
    ⟨⟨"nodeLinker: pnp\n", rfl⟩, ⟨{ isSymlink := false, isDir := false }, rfl⟩,
      ⟨{ isSymlink := false, isDir := true }, rfl⟩⟩

/-- C4: when `yarn.lock` does not exist, `ShouldRun` answers `(true, "", nil)`
whatever the previous metadata and whatever the configuration file holds
(it is not read); the machine state is untouched and the package manager is
not invoked. -/
theorem shouldRun_without_lock {σ : Type} (sys : Sys σ) (s : σ) (dir : String)
    (metadata : Metadata) (err : OsError)
    (hlock : sys.stat s (sys.join dir "yarn.lock") = Except.error err)
    (habsent : err.notExist = true) :
    (ShouldRun sys s dir metadata).val = { run := true, sha := "", err := none } ∧
    (ShouldRun sys s dir metadata).state = s ∧
    (ShouldRun sys s dir metadata).trace =
      [Event.subprocess "Process inputs (Berry):", Event.action "yarn.lock -> Not found",
       Event.lineBreak] ∧
    (∀ e ∈ (ShouldRun sys s dir metadata).trace, e.isExec = false) := by
  have h : ShouldRun sys s dir metadata =
      { val := { run := true, sha := "", err := none }, state := s,
        trace := [Event.subprocess "Process inputs (Berry):",
          Event.action "yarn.lock -> Not found", Event.lineBreak] } := by
    unfold ShouldRun
    simp only [YarnLock, hlock, habsent]
    rfl
  rw [h]
  refine ⟨rfl, rfl, rfl, ?_⟩
  intro e he
  simp at he
  rcases he with rfl | rfl | rfl <;> rfl

/-- The sample project with a malformed configuration and no lock file must
run, without error. -/
theorem shouldRun_without_lock_witness :
    (ShouldRun Machine.sys malformedProject "/workspace"
        (Metadata.empty.set "cache_sha" (GoValue.str "abc"))).val =
      { run := true, sha := "", err := none } :=
  (shouldRun_without_lock Machine.sys malformedProject "/workspace"
    (Metadata.empty.set "cache_sha" (GoValue.str "abc"))
    { notExist := true, msg := "stat /workspace/yarn.lock: no such file or directory" }
    rfl rfl).1

/-- C5: in flat-directory mode with the lock file present, a failing
`info --all --json` call makes `ShouldRun` answer `(true, "", nil)` for every
previous metadata: the failure is not propagated. -/
theorem shouldRun_info_failure {σ : Type} (sys : Sys σ) (s : σ) (dir : String)
    (lockInfo : FileInfo) (cfg : Option YarnrcConfig) (failure : String)
    (hlock : sys.stat s (sys.join dir "yarn.lock") = Except.ok lockInfo)
    (hcfg : ParseYarnrcYml sys s dir = Except.ok cfg)
    (hflat : DetermineProvisionType dir cfg = "node_modules")
    (hinfo : (sys.execute s
      { Args := ["info", "--all", "--json"], Env := [], Dir := dir }).err = some failure) :
    ∀ metadata : Metadata,
      (ShouldRun sys s dir metadata).val = { run := true, sha := "", err := none } := by
  intro metadata
  have huse := (shouldUse_of_provision dir cfg).2 hflat
  rw [shouldRun_of_config sys s dir metadata lockInfo cfg hlock hcfg, huse, if_pos rfl,
    after_val]
  unfold shouldRunForNodeModules
  simp only [hinfo]

/-- The sample project whose introspection call fails must run, also when
its metadata holds a fingerprint. -/
theorem shouldRun_info_failure_witness :
    (ShouldRun Machine.sys brokenInfoProject "/workspace"
        (Metadata.empty.set "cache_sha"
          (GoValue.str "# yarn lockfile v1\n\n\x7b\x7d\nleft-pad@npm:1.3.0\nproduction\n"))).val =
      { run := true, sha := "", err := none } :=
  shouldRun_info_failure Machine.sys brokenInfoProject "/workspace"
    { isSymlink := false, isDir := false } none "exit status 1" rfl rfl (by decide) rfl _

/-- C6: in flat-directory mode with the lock file present and the
introspection call succeeding, if `ShouldRun` on a state and metadata `m`
answers `(true, f, nil)`, then on the same state and `m` with `cache_sha`
set to `f` it answers `(false, "", nil)`, and so does every further run on
that state and metadata. -/
theorem shouldRun_idempotent {σ : Type} (sys : Sys σ) (s : σ) (dir : String)
    (m : Metadata) (lockInfo : FileInfo) (cfg : Option YarnrcConfig) (f : String)
    (hlock : sys.stat s (sys.join dir "yarn.lock") = Except.ok lockInfo)
    (hcfg : ParseYarnrcYml sys s dir = Except.ok cfg)
    (hflat : DetermineProvisionType dir cfg = "node_modules")
    (hinfo : (sys.execute s
      { Args := ["info", "--all", "--json"], Env := [], Dir := dir }).err = none)
    (hfirst : (ShouldRun sys s dir m).val = { run := true, sha := f, err := none }) :
    (ShouldRun sys s dir (m.set "cache_sha" (GoValue.str f))).val =
        { run := false, sha := "", err := none } := by
  have huse := (shouldUse_of_provision dir cfg).2 hflat
  rw [shouldRun_of_config sys s dir _ lockInfo cfg hlock hcfg, huse, if_pos rfl, after_val]
    at hfirst ⊢
  cases htemp : sys.createTemp (sys.execute s
      { Args := ["info", "--all", "--json"], Env := [], Dir := dir }).state
        "" "berry-config-file" with
  | error err =>
    unfold shouldRunForNodeModules at hfirst
    simp [hinfo, htemp] at hfirst
  | ok created =>
    obtain ⟨fileName, s1⟩ := created
    cases hwrite : sys.write s1 fileName
      ((sys.execute s { Args := ["info", "--all", "--json"], Env := [], Dir := dir }).output
        ++ sys.getenv (sys.execute s
            { Args := ["info", "--all", "--json"], Env := [], Dir := dir }).state "NODE_ENV") with
    | error err =>
      unfold shouldRunForNodeModules at hfirst
      simp [hinfo, htemp, hwrite] at hfirst
    | ok s2 =>
      cases hsum : sys.sum s2
        [sys.join dir "yarn.lock", sys.join dir "package.json", fileName] with
      | error err =>
        unfold shouldRunForNodeModules at hfirst
        simp [hinfo, htemp, hwrite, hsum, YarnLock] at hfirst
      | ok fp =>
        rw [nodeModules_compare sys s dir _ fileName s1 s2 fp hinfo htemp hwrite hsum]
          at hfirst ⊢
        have hf : fp = f := by
          by_cases h : m "cache_sha" = some (GoValue.str fp)
          · simp [h] at hfirst
          · simp [h] at hfirst
            exact hfirst
        subst hf
        simp [Metadata.set]

/-- The sample flat project: once the fingerprint of its first run is stored,
the next run on the same state is skipped. -/
theorem shouldRun_idempotent_witness :
    (ShouldRun Machine.sys flatProject "/workspace"
        (Metadata.empty.set "cache_sha"
          (GoValue.str "# yarn lockfile v1\n\n\x7b\x7d\nleft-pad@npm:1.3.0\nproduction\n"))).val =
      { run := false, sha := "", err := none } :=
  shouldRun_idempotent Machine.sys flatProject "/workspace" Metadata.empty
    { isSymlink := false, isDir := false } none
    "# yarn lockfile v1\n\n\x7b\x7d\nleft-pad@npm:1.3.0\nproduction\n"
    rfl rfl (by decide) rfl rfl

/-! ## The stages and the linking mode -/

theorem provision_ignores_path (p q : String) (cfg : Option YarnrcConfig) :
    DetermineProvisionType p cfg = DetermineProvisionType q cfg := by
  cases cfg <;> rfl

theorem shouldUse_eq_decide (dir : String) (cfg : Option YarnrcConfig) :
    ShouldUseNodeModules dir cfg = decide (DetermineProvisionType dir cfg = "node_modules") := by
  cases h : ShouldUseNodeModules dir cfg with
  | true => simp [(shouldUse_of_provision dir cfg).1 h]
  | false =>
    have : ¬ DetermineProvisionType dir cfg = "node_modules" := by
      intro hc
      rw [(shouldUse_of_provision dir cfg).2 hc] at h
      cases h
    simp [this]

theorem nodeModules_invokes {σ : Type} (sys : Sys σ) (s : σ) (dir : String)
    (metadata : Metadata) :
    Event.exec { Args := ["info", "--all", "--json"], Env := [], Dir := dir } ∈
      (shouldRunForNodeModules sys s dir metadata).trace := by
  unfold shouldRunForNodeModules
  simp only []
  repeat' split
  all_goals simp

theorem immutable_args (cfg : Option YarnrcConfig) :
    (match cfg with
      | none => ["install", "--ignore-engines"] ++ ["--immutable"]
      | some c =>
        match c.EnableImmutableInstalls with
        | none => ["install", "--ignore-engines"] ++ ["--immutable"]
        | some b =>
          if b then ["install", "--ignore-engines"] ++ ["--immutable"]
          else ["install", "--ignore-engines"]) =
    ["install", "--ignore-engines"]
      ++ (if (cfg.bind (fun c => c.EnableImmutableInstalls)) = some false then []
          else ["--immutable"]) := by
  cases cfg with
  | none => rfl
  | some c =>
    cases h : c.EnableImmutableInstalls with
    | none => simp [Option.bind, h]
    | some b => cases b <;> simp [Option.bind, h]

theorem flat_install_trace {σ : Type} (sys : Sys σ) (s : σ) (dir layer : String)
    (launch : Bool) (cfg : Option YarnrcConfig)
    (hflat : DetermineProvisionType dir cfg = "node_modules") :
    (executeNodeModulesInstall sys s dir layer launch cfg).trace.filter Event.isExec =
      [Event.exec
        { Args := installArgsSpec sys.join cfg launch layer,
          Env := sys.environ s ++
            ["PATH=" ++ sys.getenv s "PATH" ++ String.singleton sys.pathListSeparator
              ++ sys.join "node_modules" ".bin"],
          Dir := dir }] := by
  have hflat0 : DetermineProvisionType "" cfg = "node_modules" := by
    rw [provision_ignores_path "" dir cfg]; exact hflat
  unfold executeNodeModulesInstall installArgsSpec
  simp only [immutable_args, hflat0, if_true]
  cases launch <;> split <;> simp [List.filter, Event.isExec]

theorem pnp_install_trace {σ : Type} (sys : Sys σ) (s s1 : σ) (dir layer : String)
    (launch : Bool) (cfg : Option YarnrcConfig)
    (hpnp : DetermineProvisionType dir cfg ≠ "node_modules")
    (hmk : sys.mkdirAll s (sys.join layer "cache") = Except.ok s1) :
    (executePnPInstall sys s dir layer launch cfg).trace.filter Event.isExec =
      [Event.exec
        { Args := installArgsSpec sys.join cfg launch layer,
          Env := sys.environ s ++ ["YARN_CACHE_FOLDER=" ++ sys.join layer "cache"],
          Dir := dir }] := by
  have hpnp0 : ¬ DetermineProvisionType "" cfg = "node_modules" := by
    rw [provision_ignores_path "" dir cfg]; exact hpnp
  unfold executePnPInstall installArgsSpec
  simp only [immutable_args, hpnp0, if_false, hmk]
  cases launch <;> split <;> simp [List.filter, Event.isExec]

theorem pnp_install_blocked {σ : Type} (sys : Sys σ) (s : σ) (dir layer : String)
    (launch : Bool) (cfg : Option YarnrcConfig) (failure : String)
    (hmk : sys.mkdirAll s (sys.join layer "cache") = Except.error failure) :
    (executePnPInstall sys s dir layer launch cfg).trace = [] := by
  unfold executePnPInstall
  simp only [hmk]

theorem execute_of_config {σ : Type} (sys : Sys σ) (s : σ) (dir layer : String)
    (launch : Bool) (cfg : Option YarnrcConfig)
    (hcfg : ParseYarnrcYml sys s dir = Except.ok cfg) :
    Execute sys s dir layer launch =
      if DetermineProvisionType dir cfg = "node_modules" then
        executeNodeModulesInstall sys s dir layer launch cfg
      else executePnPInstall sys s dir layer launch cfg := by
  unfold Execute
  simp only [hcfg, shouldUse_eq_decide]
  by_cases h : DetermineProvisionType dir cfg = "node_modules" <;> simp [h]

theorem setupModules_of_config {σ : Type} (sys : Sys σ) (s : σ) (dir current next : String)
    (cfg : Option YarnrcConfig)
    (hcfg : ParseYarnrcYml sys s dir = Except.ok cfg) :
    SetupModules sys s dir current next =
      if DetermineProvisionType dir cfg = "node_modules" then
        setupNodeModules sys s dir current next
      else { val := Except.ok next, state := s, trace := [] } := by
  unfold SetupModules
  simp only [hcfg, shouldUse_eq_decide]
  by_cases h : DetermineProvisionType dir cfg = "node_modules" <;> simp [h]

theorem detect_provides {σ : Type} (sys : Sys σ) (s : σ) (workingDir dir : String)
    (cfg : Option YarnrcConfig) (plan : BuildPlan)
    (hpath : sys.findProjectPath s workingDir = Except.ok dir)
    (hcfg : ParseYarnrcYml sys s dir = Except.ok cfg)
    (hplan : Detect sys s workingDir = Except.ok plan) :
    plan.Provides = [DetermineProvisionType dir cfg] := by
  unfold Detect at hplan
  simp only [hpath, hcfg] at hplan
  repeat' split at hplan
  all_goals first
    | (cases hplan; done)
    | (cases hplan; rfl)

theorem spec_args_modules_folder (join : String → String → String)
    (cfg : Option YarnrcConfig) (launch : Bool) (layer : String) :
    "--modules-folder" ∈ installArgsSpec join cfg launch layer ↔
      DetermineProvisionType "" cfg = "node_modules" := by
  unfold installArgsSpec
  by_cases h : DetermineProvisionType "" cfg = "node_modules"
  · simp [h]
  · by_cases h1 : (cfg.bind (fun c => c.EnableImmutableInstalls)) = some false <;>
      cases launch <;> simp [h, h1]

theorem execute_invocations {σ : Type} (sys : Sys σ) (s : σ) (dir layer : String)
    (launch : Bool) (cfg : Option YarnrcConfig)
    (hcfg : ParseYarnrcYml sys s dir = Except.ok cfg) (e : Execution)
    (he : Event.exec e ∈ (Execute sys s dir layer launch).trace) :
    e.Args = installArgsSpec sys.join cfg launch layer ∧ e.Dir = dir ∧
    e.Env = sys.environ s ++
      [if DetermineProvisionType dir cfg = "node_modules" then
        "PATH=" ++ sys.getenv s "PATH" ++ String.singleton sys.pathListSeparator
          ++ sys.join "node_modules" ".bin"
       else "YARN_CACHE_FOLDER=" ++ sys.join layer "cache"] := by
  have hmem : Event.exec e ∈ (Execute sys s dir layer launch).trace.filter Event.isExec :=
    List.mem_filter.2 ⟨he, rfl⟩
  rw [execute_of_config sys s dir layer launch cfg hcfg] at hmem
  by_cases hflat : DetermineProvisionType dir cfg = "node_modules"
  · rw [if_pos hflat, flat_install_trace sys s dir layer launch cfg hflat] at hmem
    simp only [List.mem_singleton, Event.exec.injEq] at hmem
    subst hmem
    simp [hflat]
  · rw [if_neg hflat] at hmem
    cases hmk : sys.mkdirAll s (sys.join layer "cache") with
    | error failure =>
      rw [pnp_install_blocked sys s dir layer launch cfg failure hmk] at hmem
      simp at hmem
    | ok s1 =>
      rw [pnp_install_trace sys s s1 dir layer launch cfg hflat hmk] at hmem
      simp only [List.mem_singleton, Event.exec.injEq] at hmem
      subst hmem
      simp [hflat]

/-- C7: on one machine state with one configuration, the oracle (with the
lock file present), the materializer, the executor and the published
capability all branch on `DetermineProvisionType config = "node_modules"`:
each runs its flat-directory procedure when it holds and its plug-and-play
procedure when it does not. Accordingly the oracle invokes the package
manager exactly in the flat case, every install invocation carries
`--modules-folder` exactly in the flat case, and the plan of `Detect`
provides exactly the value of `DetermineProvisionType`. -/
theorem stages_agree_on_linking_mode {σ : Type} (sys : Sys σ) (s : σ) (dir : String)
    (cfg : Option YarnrcConfig)
    (hcfg : ParseYarnrcYml sys s dir = Except.ok cfg) :
    (∀ (metadata : Metadata) (lockInfo : FileInfo),
      sys.stat s (sys.join dir "yarn.lock") = Except.ok lockInfo →
        ShouldRun sys s dir metadata =
          (if DetermineProvisionType dir cfg = "node_modules" then
            shouldRunForNodeModules sys s dir metadata
           else shouldRunForPnP sys s dir cfg metadata).after
            [Event.subprocess "Process inputs (Berry):", Event.action "yarn.lock -> Found",
             Event.action ("Uses node_modules -> " ++
               fmtBool (decide (DetermineProvisionType dir cfg = "node_modules")))] ∧
        ((∃ e, Event.exec e ∈ (ShouldRun sys s dir metadata).trace) ↔
          DetermineProvisionType dir cfg = "node_modules")) ∧
    (∀ current next : String,
      SetupModules sys s dir current next =
        if DetermineProvisionType dir cfg = "node_modules" then
          setupNodeModules sys s dir current next
        else { val := Except.ok next, state := s, trace := [] }) ∧
    (∀ (layer : String) (launch : Bool),
      Execute sys s dir layer launch =
        (if DetermineProvisionType dir cfg = "node_modules" then
          executeNodeModulesInstall sys s dir layer launch cfg
         else executePnPInstall sys s dir layer launch cfg) ∧
      ∀ e, Event.exec e ∈ (Execute sys s dir layer launch).trace →
        ("--modules-folder" ∈ e.Args ↔ DetermineProvisionType dir cfg = "node_modules")) ∧
    (∀ (workingDir : String) (plan : BuildPlan),
      sys.findProjectPath s workingDir = Except.ok dir →
      Detect sys s workingDir = Except.ok plan →
        plan.Provides = [DetermineProvisionType dir cfg] ∧
        (plan.Provides = ["node_modules"] ↔
          DetermineProvisionType dir cfg = "node_modules")) := by
  refine ⟨?_, ?_, ?_, ?_⟩
  · intro metadata lockInfo hlock
    have hrun := shouldRun_of_config sys s dir metadata lockInfo cfg hlock hcfg
    rw [shouldUse_eq_decide] at hrun
    refine ⟨?_, ?_⟩
    · rw [hrun]
      by_cases h : DetermineProvisionType dir cfg = "node_modules" <;> simp [h]
    · rw [hrun, after_trace]
      by_cases h : DetermineProvisionType dir cfg = "node_modules"
      · simp only [h, decide_True, if_true, iff_true]
        exact ⟨_, List.mem_append_right _ (nodeModules_invokes sys s dir metadata)⟩
      · simp only [h, decide_False, iff_false, not_exists]
        intro e he
        simp only [Bool.false_eq_true, if_false, List.mem_append] at he
        rcases he with he | he
        · simp at he
        · have := (pnp_run sys s dir cfg metadata).2.2.2 _ he
          simp [Event.isExec] at this
  · intro current next
    exact setupModules_of_config sys s dir current next cfg hcfg
  · intro layer launch
    refine ⟨execute_of_config sys s dir layer launch cfg hcfg, ?_⟩
    intro e he
    rw [(execute_invocations sys s dir layer launch cfg hcfg e he).1,
      spec_args_modules_folder, provision_ignores_path "" dir cfg]
  · intro workingDir plan hpath hplan
    have hp := detect_provides sys s workingDir dir cfg plan hpath hcfg hplan
    rw [hp]
    simp

/-- The sample plug-and-play project: the materializer leaves the machine
untouched and hands back the next layer. -/
theorem stages_agree_on_linking_mode_witness :
    (SetupModules Machine.sys pnpProject "/workspace" "" "/layers/yarn/modules").val =
      Except.ok "/layers/yarn/modules" := by
  rw [(stages_agree_on_linking_mode Machine.sys pnpProject "/workspace"
    (some { YarnrcConfig.zero with NodeLinker := "pnp" }) rfl).2.1 "" "/layers/yarn/modules"]
  rfl

/-! ## A configuration file that cannot be deserialized -/

theorem parse_malformed {σ : Type} (sys : Sys σ) (s : σ) (dir data failure : String)
    (hread : sys.readFile s (sys.join dir ".yarnrc.yml") = Except.ok data)
    (hyaml : sys.unmarshal data = Except.error failure) :
    ParseYarnrcYml sys s dir = Except.error failure := by
  unfold ParseYarnrcYml
  simp only [YarnrcYml, hread, hyaml]

/-- C8, the claim as stated fails: the sample project has a configuration
file that exists and cannot be deserialized, and no lock file;
`ParseYarnrcYml` reports the error, yet `ShouldRun` answers `(true, "", nil)`:
it returns before reading the configuration. -/
theorem shouldRun_malformed_without_lock :
    Machine.sys.readFile malformedProject (Machine.sys.join "/workspace" ".yarnrc.yml") =
      Except.ok "nodeLinker: [pnp" ∧
    Machine.sys.unmarshal "nodeLinker: [pnp" =
      Except.error "yaml: line 1: did not find expected node content" ∧
    ParseYarnrcYml Machine.sys malformedProject "/workspace" =
      Except.error "yaml: line 1: did not find expected node content" ∧
    (ShouldRun Machine.sys malformedProject "/workspace" Metadata.empty).val =
      { run := true, sha := "", err := none } :=
  ⟨rfl, rfl, rfl, rfl⟩

/-- C8, amended: when the configuration file exists and cannot be
deserialized, `ParseYarnrcYml` returns the error and not the absent result;
`SetupModules` and `Execute` fail with it, touching nothing and invoking
nothing, and so does `ShouldRun` whenever `yarn.lock` is present. When the
configuration file does not exist, `ParseYarnrcYml` returns absent and no
error. -/
theorem malformed_config_is_an_error {σ : Type} (sys : Sys σ) (s : σ) (dir : String) :
    (∀ data failure : String,
      sys.readFile s (sys.join dir ".yarnrc.yml") = Except.ok data →
      sys.unmarshal data = Except.error failure →
        ParseYarnrcYml sys s dir = Except.error failure ∧
        (∀ current next : String,
          (SetupModules sys s dir current next).val =
            Except.error ("failed to parse .yarnrc.yml: " ++ failure) ∧
          (SetupModules sys s dir current next).state = s) ∧
        (∀ (layer : String) (launch : Bool),
          (Execute sys s dir layer launch).val =
            some ("failed to parse .yarnrc.yml: " ++ failure) ∧
          (Execute sys s dir layer launch).state = s ∧
          (Execute sys s dir layer launch).trace = []) ∧
        (∀ (metadata : Metadata) (lockInfo : FileInfo),
          sys.stat s (sys.join dir "yarn.lock") = Except.ok lockInfo →
            (ShouldRun sys s dir metadata).val =
              { run := true, sha := "",
                err := some ("failed to parse .yarnrc.yml: " ++ failure) } ∧
            (ShouldRun sys s dir metadata).state = s ∧
            ∀ e ∈ (ShouldRun sys s dir metadata).trace, e.isExec = false)) ∧
    (∀ err : OsError,
      sys.readFile s (sys.join dir ".yarnrc.yml") = Except.error err →
      err.notExist = true →
        ParseYarnrcYml sys s dir = Except.ok none) := by
  refine ⟨?_, ?_⟩
  · intro data failure hread hyaml
    have hparse := parse_malformed sys s dir data failure hread hyaml
    refine ⟨hparse, ?_, ?_, ?_⟩
    · intro current next
      have h : SetupModules sys s dir current next =
          { val := Except.error ("failed to parse .yarnrc.yml: " ++ failure), state := s,
            trace := [] } := by
        unfold SetupModules
        simp only [hparse]
      rw [h]
      exact ⟨rfl, rfl⟩
    · intro layer launch
      have h : Execute sys s dir layer launch =
          { val := some ("failed to parse .yarnrc.yml: " ++ failure), state := s,
            trace := [] } := by
        unfold Execute
        simp only [hparse]
      rw [h]
      exact ⟨rfl, rfl, rfl⟩
    · intro metadata lockInfo hlock
      have h : ShouldRun sys s dir metadata =
          { val := { run := true, sha := "",
                     err := some ("failed to parse .yarnrc.yml: " ++ failure) },
            state := s,
            trace := [Event.subprocess "Process inputs (Berry):",
              Event.action "yarn.lock -> Found"] } := by
        unfold ShouldRun
        simp only [YarnLock, hlock, hparse]
        rfl
      rw [h]
      refine ⟨rfl, rfl, ?_⟩
      intro e he
      simp at he
      rcases he with rfl | rfl <;> rfl
  · intro err hread habsent
    unfold ParseYarnrcYml
    simp only [YarnrcYml, hread, habsent]
    rfl

/-- The malformed sample project: the executor fails with the parse error and
invokes nothing. -/
theorem malformed_config_is_an_error_witness :
    (Execute Machine.sys malformedProject "/workspace" "/layers/yarn/modules" false).val =
      some "failed to parse .yarnrc.yml: yaml: line 1: did not find expected node content" ∧
    ParseYarnrcYml Machine.sys flatProject "/workspace" = Except.ok none :=
  ⟨(((malformed_config_is_an_error Machine.sys malformedProject "/workspace").1
      "nodeLinker: [pnp" "yaml: line 1: did not find expected node content" rfl rfl).2.2.1
      "/layers/yarn/modules" false).1,
   (malformed_config_is_an_error Machine.sys flatProject "/workspace").2
      { notExist := true, msg := "open /workspace/.yarnrc.yml: no such file or directory" }
      rfl rfl⟩

/-! ## The install command -/

/-- C9: every invocation of the package manager by `Execute` has the argument
vector `install --ignore-engines`, then `--immutable` unless the
configuration is present with `enableImmutableInstalls` false, then
`--production false` exactly for a build that is not a launch build, then,
in flat-directory mode only, `--modules-folder` and the join of the layer
path with `node_modules`. In flat-directory mode there is exactly one such
invocation, and so there is in plug-and-play mode once the cache directory
of the layer could be created. -/
theorem execute_argument_vector {σ : Type} (sys : Sys σ) (s : σ) (dir layer : String)
    (launch : Bool) (cfg : Option YarnrcConfig)
    (hcfg : ParseYarnrcYml sys s dir = Except.ok cfg) :
    (∀ e, Event.exec e ∈ (Execute sys s dir layer launch).trace →
      e.Args =
        ["install", "--ignore-engines"]
          ++ (if (cfg.bind (fun c => c.EnableImmutableInstalls)) = some false then []
              else ["--immutable"])
          ++ (if launch = false then ["--production", "false"] else [])
          ++ (if DetermineProvisionType dir cfg = "node_modules" then
                ["--modules-folder", sys.join layer "node_modules"]
              else [])) ∧
    (DetermineProvisionType dir cfg = "node_modules" →
      ∃ e, (Execute sys s dir layer launch).trace.filter Event.isExec = [Event.exec e]) ∧
    (DetermineProvisionType dir cfg ≠ "node_modules" →
      ∀ s1, sys.mkdirAll s (sys.join layer "cache") = Except.ok s1 →
        ∃ e, (Execute sys s dir layer launch).trace.filter Event.isExec = [Event.exec e]) := by
  refine ⟨?_, ?_, ?_⟩
  · intro e he
    rw [(execute_invocations sys s dir layer launch cfg hcfg e he).1]
    unfold installArgsSpec
    rw [provision_ignores_path "" dir cfg]
  · intro hflat
    rw [execute_of_config sys s dir layer launch cfg hcfg, if_pos hflat,
      flat_install_trace sys s dir layer launch cfg hflat]
    exact ⟨_, rfl⟩
  · intro hpnp s1 hmk
    rw [execute_of_config sys s dir layer launch cfg hcfg, if_neg hpnp,
      pnp_install_trace sys s s1 dir layer launch cfg hpnp hmk]
    exact ⟨_, rfl⟩

/-- The sample flat project, build-time install into a layer: one invocation,
with the full argument vector. -/
theorem execute_argument_vector_witness :
    ∃ e, (Execute Machine.sys flatProject "/workspace" "/layers/yarn/modules" false).trace.filter
          Event.isExec = [Event.exec e] ∧
      e.Args = ["install", "--ignore-engines", "--immutable", "--production", "false",
                "--modules-folder", "/layers/yarn/modules/node_modules"] := by
  have h := execute_argument_vector Machine.sys flatProject "/workspace" "/layers/yarn/modules"
    false none rfl
  obtain ⟨e, he⟩ := h.2.1 (by decide)
  refine ⟨e, he, ?_⟩
  have hmem : Event.exec e ∈
      (Execute Machine.sys flatProject "/workspace" "/layers/yarn/modules" false).trace := by
    have : Event.exec e ∈ (Execute Machine.sys flatProject "/workspace"
        "/layers/yarn/modules" false).trace.filter Event.isExec := by
      rw [he]; exact List.mem_singleton.2 rfl
    exact (List.mem_filter.1 this).1
  rw [h.1 e hmem]
  decide

/-- C10, the claim as stated fails: on the sample flat project, with `PATH`
set to `/usr/bin` and the layer `/layers/yarn/modules`, the environment of
the one install invocation ends with `PATH=/usr/bin:node_modules/.bin`; the
entry with the layer's `node_modules/.bin` before `/usr/bin` is not in it. -/
theorem execute_path_not_prepended :
    ParseYarnrcYml Machine.sys flatProject "/workspace" = Except.ok none ∧
    DetermineProvisionType "/workspace" none = "node_modules" ∧
    Machine.sys.getenv flatProject "PATH" = "/usr/bin" ∧
    Machine.sys.join (Machine.sys.join "/layers/yarn/modules" "node_modules") ".bin" =
      "/layers/yarn/modules/node_modules/.bin" ∧
    (Execute Machine.sys flatProject "/workspace" "/layers/yarn/modules" false).trace.filter
        Event.isExec =
      [Event.exec
        { Args := ["install", "--ignore-engines", "--immutable", "--production", "false",
                   "--modules-folder", "/layers/yarn/modules/node_modules"],
          Env := ["PATH=/usr/bin", "NODE_ENV=production", "PATH=/usr/bin:node_modules/.bin"],
          Dir := "/workspace" }] ∧
    "PATH=/layers/yarn/modules/node_modules/.bin:/usr/bin" ∉
      ["PATH=/usr/bin", "NODE_ENV=production", "PATH=/usr/bin:node_modules/.bin"] :=
  ⟨rfl, by decide, by decide, by decide, by decide, by decide⟩

/-- C10, amended: in flat-directory mode, for every layer path and every
existing `PATH`, `Execute` invokes the package manager once, and the
environment it passes is the process environment followed by one entry
`PATH=` holding the existing `PATH`, the path-list separator and the
relative path that joins `node_modules` and `.bin`: that path comes after the
existing `PATH` and does not depend on the layer. -/
theorem execute_path_appended {σ : Type} (sys : Sys σ) (s : σ) (dir layer : String)
    (launch : Bool) (cfg : Option YarnrcConfig)
    (hcfg : ParseYarnrcYml sys s dir = Except.ok cfg)
    (hflat : DetermineProvisionType dir cfg = "node_modules") :
    (∃ e, (Execute sys s dir layer launch).trace.filter Event.isExec = [Event.exec e]) ∧
    (∀ e, Event.exec e ∈ (Execute sys s dir layer launch).trace →
      e.Env = sys.environ s ++
        ["PATH=" ++ sys.getenv s "PATH" ++ String.singleton sys.pathListSeparator
          ++ sys.join "node_modules" ".bin"]) := by
  refine ⟨?_, ?_⟩
  · rw [execute_of_config sys s dir layer launch cfg hcfg, if_pos hflat,
      flat_install_trace sys s dir layer launch cfg hflat]
    exact ⟨_, rfl⟩
  · intro e he
    rw [(execute_invocations sys s dir layer launch cfg hcfg e he).2.2, if_pos hflat]

/-- The sample flat project: the environment of its install invocation. -/
theorem execute_path_appended_witness :
    ∃ e, (Execute Machine.sys flatProject "/workspace" "/layers/yarn/modules" true).trace.filter
          Event.isExec = [Event.exec e] ∧
      e.Env = ["PATH=/usr/bin", "NODE_ENV=production", "PATH=/usr/bin:node_modules/.bin"] := by
  have h := execute_path_appended Machine.sys flatProject "/workspace" "/layers/yarn/modules"
    true none rfl (by decide)
  obtain ⟨e, he⟩ := h.1
  refine ⟨e, he, ?_⟩
  have hmem : Event.exec e ∈
      (Execute Machine.sys flatProject "/workspace" "/layers/yarn/modules" true).trace := by
    have : Event.exec e ∈ (Execute Machine.sys flatProject "/workspace"
        "/layers/yarn/modules" true).trace.filter Event.isExec := by
      rw [he]; exact List.mem_singleton.2 rfl
    exact (List.mem_filter.1 this).1
  rw [h.2 e hmem]
  decide

/-! ## The materializer -/

theorem setup_cold_steps {σ : Type} (sys : Sys σ) (s : σ) (dir next layer : String)
    (hrun : (setupNodeModules sys s dir "" next).val = Except.ok layer) :
    ∃ s1 s2 s3 s4,
      ((∃ fi, sys.lstat s (sys.join dir "node_modules") = Except.ok fi ∧ fi.isSymlink = true ∧
          sys.removeAll s (sys.join dir "node_modules") = Except.ok s1) ∨
       (∃ fi, sys.lstat s (sys.join dir "node_modules") = Except.ok fi ∧ fi.isSymlink = false ∧
          s1 = s) ∨
       (∃ e, sys.lstat s (sys.join dir "node_modules") = Except.error e ∧ e.notExist = true ∧
          s1 = s)) ∧
      sys.mkdirAll s1 (sys.join dir "node_modules") = Except.ok s2 ∧
      sys.move s2 (sys.join dir "node_modules") (sys.join next "node_modules") = Except.ok s3 ∧
      sys.symlink s3 (sys.join next "node_modules") (sys.join dir "node_modules")
        = Except.ok s4 ∧
      setupNodeModules sys s dir "" next =
        { val := Except.ok next, state := s4, trace := [] } ∧
      layer = next := by
  unfold setupNodeModules at hrun ⊢
  simp only [ne_eq, not_true_eq_false, if_false] at hrun ⊢
  cases hl : sys.lstat s (sys.join dir "node_modules") with
  | error e =>
    rw [hl] at hrun
    by_cases hn : e.notExist = true
    · simp only [hn, Bool.not_true, Bool.false_eq_true, if_false] at hrun ⊢
      cases hmk : sys.mkdirAll s (sys.join dir "node_modules") with
      | error err => simp [hmk] at hrun
      | ok s2 =>
        simp only [hmk] at hrun ⊢
        cases hmv : sys.move s2 (sys.join dir "node_modules")
            (sys.join next "node_modules") with
        | error err => simp [hmv] at hrun
        | ok s3 =>
          simp only [hmv] at hrun ⊢
          cases hsl : sys.symlink s3 (sys.join next "node_modules")
              (sys.join dir "node_modules") with
          | error err => simp [hsl] at hrun
          | ok s4 =>
            simp only [hsl] at hrun ⊢
            refine ⟨s, s2, s3, s4, Or.inr (Or.inr ⟨e, rfl, hn, rfl⟩), hmk, hmv, hsl, rfl, ?_⟩
            injection hrun with h
            exact h.symm
    · simp [hn] at hrun
  | ok fi =>
    rw [hl] at hrun
    by_cases hs : fi.isSymlink = true
    · simp only [hs, if_true] at hrun ⊢
      cases hrm : sys.removeAll s (sys.join dir "node_modules") with
      | error err => simp [hrm] at hrun
      | ok s1 =>
        simp only [hrm] at hrun ⊢
        cases hmk : sys.mkdirAll s1 (sys.join dir "node_modules") with
        | error err => simp [hmk] at hrun
        | ok s2 =>
          simp only [hmk] at hrun ⊢
          cases hmv : sys.move s2 (sys.join dir "node_modules")
              (sys.join next "node_modules") with
          | error err => simp [hmv] at hrun
          | ok s3 =>
            simp only [hmv] at hrun ⊢
            cases hsl : sys.symlink s3 (sys.join next "node_modules")
                (sys.join dir "node_modules") with
            | error err => simp [hsl] at hrun
            | ok s4 =>
              simp only [hsl] at hrun ⊢
              refine ⟨s1, s2, s3, s4, Or.inl ⟨fi, rfl, hs, rfl⟩, hmk, hmv, hsl, rfl, ?_⟩
              injection hrun with h
              exact h.symm
    · have hs' : fi.isSymlink = false := by
        cases h : fi.isSymlink with
        | true => exact absurd h hs
        | false => rfl
      simp only [hs', Bool.false_eq_true, if_false] at hrun ⊢
      cases hmk : sys.mkdirAll s (sys.join dir "node_modules") with
      | error err => simp [hmk] at hrun
      | ok s2 =>
        simp only [hmk] at hrun ⊢
        cases hmv : sys.move s2 (sys.join dir "node_modules")
            (sys.join next "node_modules") with
        | error err => simp [hmv] at hrun
        | ok s3 =>
          simp only [hmv] at hrun ⊢
          cases hsl : sys.symlink s3 (sys.join next "node_modules")
              (sys.join dir "node_modules") with
          | error err => simp [hsl] at hrun
          | ok s4 =>
            simp only [hsl] at hrun ⊢
            refine ⟨s, s2, s3, s4, Or.inr (Or.inl ⟨fi, rfl, hs', rfl⟩), hmk, hmv, hsl, rfl, ?_⟩
            injection hrun with h
            exact h.symm

theorem cold_source_is_real {σ κ : Type} (sys : Sys σ) (view : FsView σ κ)
    (laws : FsLaws sys view) (s s1 s2 : σ) (link : String)
    (hfirst :
      (∃ fi, sys.lstat s link = Except.ok fi ∧ fi.isSymlink = true ∧
          sys.removeAll s link = Except.ok s1) ∨
      (∃ fi, sys.lstat s link = Except.ok fi ∧ fi.isSymlink = false ∧ s1 = s) ∨
      (∃ e, sys.lstat s link = Except.error e ∧ e.notExist = true ∧ s1 = s))
    (hmk : sys.mkdirAll s1 link = Except.ok s2) :
    (∃ fi, sys.lstat s2 link = Except.ok fi ∧ fi.isSymlink = false) ∧
    view.entries s2 link =
      match sys.lstat s link with
      | Except.ok fi => if fi.isSymlink = true then view.empty else view.entries s link
      | Except.error _ => view.entries s link := by
  rcases hfirst with ⟨fi, hl, hs, hrm⟩ | ⟨fi, hl, hs, rfl⟩ | ⟨e, hl, hn, rfl⟩
  · obtain ⟨⟨e, he, hn⟩, hempty⟩ := laws.removeAll_gone s s1 link fi hl hrm
    obtain ⟨hdir, hsame⟩ := laws.mkdirAll_absent s1 s2 link e he hn hmk
    refine ⟨⟨_, hdir, rfl⟩, ?_⟩
    rw [hsame, hempty, hl]
    simp [hs]
  · obtain ⟨hdir, hsame⟩ := laws.mkdirAll_present s1 s2 link fi hl hs hmk
    refine ⟨⟨fi, hdir, hs⟩, ?_⟩
    rw [hsame, hl]
    simp [hs]
  · obtain ⟨hdir, hsame⟩ := laws.mkdirAll_absent s1 s2 link e hl hn hmk
    refine ⟨⟨_, hdir, rfl⟩, ?_⟩
    rw [hsame, hl]

theorem cold_symlink {σ κ : Type} (sys : Sys σ) (view : FsView σ κ)
    (laws : FsLaws sys view) (s : σ) (dir next layer : String)
    (hrun : (setupNodeModules sys s dir "" next).val = Except.ok layer) :
    layer = next ∧
    sys.lstat (setupNodeModules sys s dir "" next).state (sys.join dir "node_modules") =
      Except.ok { isSymlink := true, isDir := false } ∧
    view.target (setupNodeModules sys s dir "" next).state (sys.join dir "node_modules") =
      some (sys.join next "node_modules") := by
  obtain ⟨s1, s2, s3, s4, hfirst, hmk, hmv, hsl, hout, hlayer⟩ :=
    setup_cold_steps sys s dir next layer hrun
  obtain ⟨⟨fi2, hl2, hs2⟩, -⟩ := cold_source_is_real sys view laws s s1 s2 _ hfirst hmk
  obtain ⟨e3, hl3, hn3⟩ := laws.move_gone s2 s3 _ _ fi2 hl2 hs2 hmv
  obtain ⟨hl4, ht4⟩ := laws.symlink_made s3 s4 _ _ e3 hl3 hn3 hsl
  rw [hout]
  exact ⟨hlayer, hl4, ht4⟩

theorem cold_entries {σ κ : Type} (sys : Sys σ) (view : FsView σ κ)
    (laws : FsLaws sys view) (s : σ) (dir next layer : String)
    (hapart : view.apart (sys.join next "node_modules") (sys.join dir "node_modules"))
    (hrun : (setupNodeModules sys s dir "" next).val = Except.ok layer) :
    view.entries (setupNodeModules sys s dir "" next).state (sys.join next "node_modules") =
      match sys.lstat s (sys.join dir "node_modules") with
      | Except.ok fi =>
        if fi.isSymlink = true then view.empty
        else view.entries s (sys.join dir "node_modules")
      | Except.error _ => view.entries s (sys.join dir "node_modules") := by
  obtain ⟨s1, s2, s3, s4, hfirst, hmk, hmv, hsl, hout, hlayer⟩ :=
    setup_cold_steps sys s dir next layer hrun
  obtain ⟨⟨fi2, hl2, hs2⟩, hsrc⟩ := cold_source_is_real sys view laws s s1 s2 _ hfirst hmk
  rw [hout]
  show view.entries s4 (sys.join next "node_modules") = _
  rw [laws.symlink_frame s3 s4 _ _ hsl _ hapart,
    laws.move_tree s2 s3 _ _ fi2 hl2 hs2 hapart hmv, hsrc]

theorem cold_link_only {σ κ : Type} (sys : Sys σ) (view : FsView σ κ)
    (laws : FsLaws sys view) (s : σ) (dir next layer : String) (fi : FileInfo)
    (hl : sys.lstat s (sys.join dir "node_modules") = Except.ok fi)
    (hs : fi.isSymlink = true)
    (hrun : (setupNodeModules sys s dir "" next).val = Except.ok layer) :
    ∃ s1, sys.removeAll s (sys.join dir "node_modules") = Except.ok s1 ∧
      (∀ q, view.apart q (sys.join dir "node_modules") →
        view.entries s1 q = view.entries s q) ∧
      setupNodeModules sys s dir "" next = setupNodeModules sys s1 dir "" next := by
  obtain ⟨s1, s2, s3, s4, hfirst, hmk, hmv, hsl, hout, hlayer⟩ :=
    setup_cold_steps sys s dir next layer hrun
  rcases hfirst with ⟨fi1, hl1, hs1, hrm⟩ | ⟨fi1, hl1, hs1, rfl⟩ | ⟨e, hl1, hn, rfl⟩
  · refine ⟨s1, hrm, laws.removeAll_link s s1 _ fi hl hs hrm, ?_⟩
    obtain ⟨⟨e, he, hn⟩, -⟩ := laws.removeAll_gone s s1 _ fi hl hrm
    rw [hout]
    unfold setupNodeModules
    simp only [ne_eq, not_true_eq_false, if_false, he, hn, Bool.not_true, Bool.false_eq_true,
      hmk, hmv, hsl]
  · rw [hl] at hl1
    injection hl1 with h
    subst h
    rw [hs] at hs1
    cases hs1
  · rw [hl] at hl1
    cases hl1

/-! ## The sample machine obeys the laws -/

theorem under_iff (p q : String) :
    Machine.under p q = true ↔ (p.data ++ ['/']) <+: q.data := by
  unfold Machine.under
  exact List.isPrefixOf_iff_prefix

theorem under_self (p : String) : Machine.under p p = false := by
  cases h : Machine.under p p with
  | false => rfl
  | true =>
    have hp := (under_iff p p).1 h
    have := hp.length_le
    simp at this

theorem snoc_prefix_snoc {α : Type} (a b : List α) (x y : α)
    (h : a ++ [x] <+: b ++ [y]) : a = b ∨ a ++ [x] <+: b := by
  obtain ⟨t, ht⟩ := h
  rcases List.eq_nil_or_concat t with rfl | ⟨t1, z, rfl⟩
  · left
    rw [List.append_nil] at ht
    exact (List.append_inj' ht rfl).1
  · right
    rw [List.concat_eq_append, ← List.append_assoc] at ht
    exact ⟨t1, (List.append_inj' ht rfl).1⟩

theorem under_comparable (p q e : String)
    (hp : Machine.under p e = true) (hq : Machine.under q e = true) :
    p = q ∨ Machine.under p q = true ∨ Machine.under q p = true := by
  rw [under_iff] at hp hq
  rcases List.prefix_or_prefix_of_prefix hp hq with h | h
  · rcases snoc_prefix_snoc _ _ _ _ h with h1 | h1
    · left; exact String.ext h1
    · right; left; exact (under_iff p q).2 h1
  · rcases snoc_prefix_snoc _ _ _ _ h with h1 | h1
    · left; exact (String.ext h1).symm
    · right; right; exact (under_iff q p).2 h1

theorem apart_keeps (q p e : String) (hapart : Machine.view.apart q p)
    (he : Machine.under q e = true) :
    (decide (e ≠ p) && !Machine.under p e) = true := by
  obtain ⟨hne, h1, h2⟩ := hapart
  have hep : e ≠ p := by
    intro h
    subst h
    rw [he] at h1
    cases h1
  have hpe : Machine.under p e = false := by
    cases h : Machine.under p e with
    | false => rfl
    | true =>
      rcases under_comparable q p e he h with h3 | h3 | h3
      · exact absurd h3 hne
      · rw [h3] at h1; cases h1
      · rw [h3] at h2; cases h2
  simp [hep, hpe]

theorem lookup_filter_key {α : Type} (l : List (String × α)) (keep : String → Bool)
    (k : String) (h : keep k = false) :
    (l.filter (fun x => keep x.1)).lookup k = none := by
  induction l with
  | nil => rfl
  | cons x xs ih =>
    obtain ⟨a, b⟩ := x
    by_cases hx : keep a = true
    · have hne : (k == a) = false := by
        cases hka : (k == a) with
        | false => rfl
        | true =>
          have : k = a := by simpa using hka
          subst this
          rw [h] at hx
          cases hx
      simp only [List.filter_cons, hx, if_true, List.lookup, hne]
      exact ih
    · simp only [List.filter_cons, hx, if_false]
      exact ih

theorem mem_filter_key (l : List String) (keep : String → Bool)
    (k : String) (h : keep k = false) : k ∉ l.filter keep := by
  intro hm
  have := (List.mem_filter.1 hm).2
  rw [h] at this
  cases this

theorem lstat_ok_allowed (m : Machine) (p : String) (fi : FileInfo)
    (h : Machine.lstat m p = Except.ok fi) : p ∉ m.denied := by
  intro hd
  unfold Machine.lstat at h
  simp [hd] at h

theorem lstat_absent (m : Machine) (p : String) (e : OsError)
    (h : Machine.lstat m p = Except.error e) (hn : e.notExist = true) :
    p ∉ m.denied ∧ m.links.lookup p = none ∧ p ∉ m.dirs ∧ m.files.lookup p = none := by
  unfold Machine.lstat at h
  by_cases hd : p ∈ m.denied
  · simp [hd] at h
    rw [← h] at hn
    cases hn
  · cases hl : m.links.lookup p with
    | some t => simp [hd, hl] at h
    | none =>
      by_cases hdir : p ∈ m.dirs
      · simp [hd, hl, hdir] at h
      · cases hf : m.files.lookup p with
        | some c => simp [hd, hl, hdir, hf] at h
        | none => exact ⟨hd, rfl, hdir, rfl⟩

theorem keep_self (p : String) : (decide (p ≠ p) && !Machine.under p p) = false := by
  simp

theorem removeAll_eq (m : Machine) (p : String) :
    Machine.removeAll m p = Except.ok
      { m with
        files := m.files.filter (fun f => decide (f.1 ≠ p) && !Machine.under p f.1),
        dirs := m.dirs.filter (fun q => decide (q ≠ p) && !Machine.under p q),
        links := m.links.filter (fun l => decide (l.1 ≠ p) && !Machine.under p l.1) } := rfl

theorem lstat_removed (m m1 : Machine) (p : String)
    (hd : p ∉ m.denied)
    (hrm : Machine.removeAll m p = Except.ok m1) :
    Machine.lstat m1 p = Except.error
      { notExist := true, msg := "lstat " ++ p ++ ": no such file or directory" } := by
  rw [removeAll_eq] at hrm
  injection hrm with hrm
  subst hrm
  unfold Machine.lstat
  have h1 := lookup_filter_key m.links (fun q => decide (q ≠ p) && !Machine.under p q) p
    (keep_self p)
  have h2 := mem_filter_key m.dirs (fun q => decide (q ≠ p) && !Machine.under p q) p
    (keep_self p)
  have h3 := lookup_filter_key m.files (fun q => decide (q ≠ p) && !Machine.under p q) p
    (keep_self p)
  simp [hd, h1, h2, h3]

theorem filter_under_removed {α : Type} (l : List α) (key : α → String) (p : String) :
    (l.filter (fun x => decide (key x ≠ p) && !Machine.under p (key x))).filter
      (fun x => Machine.under p (key x)) = [] := by
  rw [List.filter_filter, List.filter_eq_nil_iff]
  intro x _
  cases h : Machine.under p (key x) <;> simp [h]

theorem filter_under_apart {α : Type} (l : List α) (key : α → String) (q p : String)
    (hapart : Machine.view.apart q p) :
    (l.filter (fun x => decide (key x ≠ p) && !Machine.under p (key x))).filter
      (fun x => Machine.under q (key x)) = l.filter (fun x => Machine.under q (key x)) := by
  rw [List.filter_filter]
  apply List.filter_congr
  intro x _
  cases h : Machine.under q (key x) with
  | false => simp
  | true =>
    have := apart_keeps q p (key x) hapart h
    simp only [Bool.true_and]
    exact this

theorem entries_removed (m m1 : Machine) (p : String)
    (hrm : Machine.removeAll m p = Except.ok m1) :
    Machine.entries m1 p = Machine.view.empty := by
  rw [removeAll_eq] at hrm
  injection hrm with hrm
  subst hrm
  unfold Machine.entries
  simp only [filter_under_removed m.files (fun f => f.1) p,
    filter_under_removed m.dirs (fun d => d) p,
    filter_under_removed m.links (fun f => f.1) p, List.map_nil]
  rfl

theorem entries_removed_apart (m m1 : Machine) (p q : String)
    (hapart : Machine.view.apart q p)
    (hrm : Machine.removeAll m p = Except.ok m1) :
    Machine.entries m1 q = Machine.entries m q := by
  rw [removeAll_eq] at hrm
  injection hrm with hrm
  subst hrm
  unfold Machine.entries
  simp only [filter_under_apart m.files (fun f => f.1) q p hapart,
    filter_under_apart m.dirs (fun d => d) q p hapart,
    filter_under_apart m.links (fun f => f.1) q p hapart]

theorem machine_mkdirAll_absent (m m1 : Machine) (p : String) (e : OsError)
    (hl : Machine.lstat m p = Except.error e) (hn : e.notExist = true)
    (hmk : Machine.mkdirAll m p = Except.ok m1) :
    Machine.lstat m1 p = Except.ok { isSymlink := false, isDir := true } ∧
    Machine.entries m1 p = Machine.entries m p := by
  obtain ⟨hd, hlk, hdir, hf⟩ := lstat_absent m p e hl hn
  unfold Machine.mkdirAll at hmk
  simp [hf, hdir, hlk] at hmk
  subst hmk
  constructor
  · unfold Machine.lstat
    simp [hd, hlk]
  · unfold Machine.entries
    simp [List.filter_cons, under_self]

theorem machine_mkdirAll_present (m m1 : Machine) (p : String) (fi : FileInfo)
    (hl : Machine.lstat m p = Except.ok fi) (hs : fi.isSymlink = false)
    (hmk : Machine.mkdirAll m p = Except.ok m1) :
    Machine.lstat m1 p = Except.ok fi ∧ Machine.entries m1 p = Machine.entries m p := by
  have hd := lstat_ok_allowed m p fi hl
  have hlk : m.links.lookup p = none := by
    cases h : m.links.lookup p with
    | none => rfl
    | some t =>
      unfold Machine.lstat at hl
      simp [hd, h] at hl
      rw [← hl] at hs
      cases hs
  cases hf : m.files.lookup p with
  | some c =>
    unfold Machine.mkdirAll at hmk
    simp [hf] at hmk
  | none =>
    by_cases hdir : p ∈ m.dirs
    · unfold Machine.mkdirAll at hmk
      simp [hf, hdir] at hmk
      subst hmk
      exact ⟨hl, rfl⟩
    · unfold Machine.lstat at hl
      simp [hd, hlk, hdir, hf] at hl

theorem machine_symlink_made (m m1 : Machine) (oldname newname : String) (e : OsError)
    (hl : Machine.lstat m newname = Except.error e) (hn : e.notExist = true)
    (hsl : Machine.symlink m oldname newname = Except.ok m1) :
    Machine.lstat m1 newname = Except.ok { isSymlink := true, isDir := false } ∧
    m1.links.lookup newname = some oldname := by
  obtain ⟨hd, hlk, hdir, hf⟩ := lstat_absent m newname e hl hn
  unfold Machine.symlink Machine.hasNode at hsl
  simp [hf, hdir, hlk] at hsl
  subst hsl
  constructor
  · unfold Machine.lstat
    simp [hd, List.lookup]
  · simp [List.lookup]

theorem machine_symlink_frame (m m1 : Machine) (oldname newname q : String)
    (hsl : Machine.symlink m oldname newname = Except.ok m1)
    (hapart : Machine.view.apart q newname) :
    Machine.entries m1 q = Machine.entries m q := by
  unfold Machine.symlink at hsl
  split at hsl
  · cases hsl
  · injection hsl with hsl
    subst hsl
    unfold Machine.entries
    simp [List.filter_cons, hapart.2.1]

theorem copy_denied (m m1 : Machine) (source destination : String)
    (h : Machine.copy m source destination = Except.ok m1) : m1.denied = m.denied := by
  unfold Machine.copy at h
  rw [removeAll_eq] at h
  simp only at h
  split at h
  · cases h
  · injection h with h
    subst h
    rfl

theorem machine_move_gone (m m1 : Machine) (source destination : String) (fi : FileInfo)
    (hl : Machine.lstat m source = Except.ok fi)
    (hmv : Machine.move m source destination = Except.ok m1) :
    Machine.lstat m1 source = Except.error
      { notExist := true, msg := "lstat " ++ source ++ ": no such file or directory" } := by
  have hd := lstat_ok_allowed m source fi hl
  unfold Machine.move at hmv
  cases hc : Machine.copy m source destination with
  | error err => simp [hc] at hmv
  | ok m2 =>
    simp only [hc] at hmv
    have hd2 : source ∉ m2.denied := by
      rw [copy_denied m m2 source destination hc]; exact hd
    exact lstat_removed m2 m1 source hd2 hmv

theorem rebase_data (src dst k : String) :
    (Machine.rebase src dst k).data = dst.data ++ k.data.drop src.data.length := rfl

theorem under_rebase (src dst k : String) (h : Machine.under src k = true) :
    Machine.under dst (Machine.rebase src dst k) = true := by
  rw [under_iff] at h ⊢
  obtain ⟨r, hr⟩ := h
  rw [rebase_data, ← hr]
  simp only [List.append_assoc, List.drop_left]
  exact ⟨r, by simp⟩

theorem rebase_self (src dst : String) : Machine.rebase src dst src = dst := by
  apply String.ext
  rw [rebase_data]
  simp

theorem relative_rebase (src dst k : String) :
    Machine.relative dst (Machine.rebase src dst k) = Machine.relative src k := by
  unfold Machine.relative
  rw [rebase_data]
  simp

theorem moved_entries {β : Type} (l : List β) (key : β → String) (rekey : String → β → β)
    (hkey : ∀ p b, key (rekey p b) = p) (hrr : ∀ p q b, rekey p (rekey q b) = rekey p b)
    (src dst : String) (hapart : Machine.view.apart dst src) :
    (((((l.filter (fun b => decide (key b ≠ dst) && !Machine.under dst (key b))).filter
          (fun b => decide (key b = src) || Machine.under src (key b))).map
          (fun b => rekey (Machine.rebase src dst (key b)) b)
        ++ l.filter (fun b => decide (key b ≠ dst) && !Machine.under dst (key b))).filter
        (fun b => decide (key b ≠ src) && !Machine.under src (key b))).filter
      (fun b => Machine.under dst (key b))).map (fun b => rekey (Machine.relative dst (key b)) b)
    = (l.filter (fun b => Machine.under src (key b))).map
        (fun b => rekey (Machine.relative src (key b)) b) := by
  have hsym : Machine.view.apart src dst := ⟨fun h => hapart.1 h.symm, hapart.2.2, hapart.2.1⟩
  rw [List.filter_append, List.filter_append]
  have hB : ((l.filter (fun b => decide (key b ≠ dst) && !Machine.under dst (key b))).filter
        (fun b => decide (key b ≠ src) && !Machine.under src (key b))).filter
      (fun b => Machine.under dst (key b)) = [] := by
    rw [List.filter_filter, List.filter_filter, List.filter_eq_nil_iff]
    intro b _
    cases h : Machine.under dst (key b) <;> simp [h]
  rw [hB, List.append_nil, List.filter_filter, List.filter_map, List.filter_filter,
    List.filter_filter, List.map_map]
  refine Eq.trans
    (congrArg _ (@List.filter_congr _ _ (fun b => Machine.under src (key b)) l ?_)) ?_
  · intro b _
    simp only [Function.comp, hkey]
    cases h : Machine.under src (key b) with
    | true =>
      have h1 := under_rebase src dst (key b) h
      have h2 := apart_keeps dst src _ hapart h1
      have h3 := apart_keeps src dst _ hsym h
      simp only [Bool.and_eq_true, Bool.not_eq_true', decide_eq_true_eq] at h2 h3
      simp [h1, h2.1, h2.2, h3.1, h3.2]
    | false =>
      by_cases hk : key b = src
      · simp [hk, rebase_self, under_self]
      · simp [hk]
  · apply List.map_congr_left
    intro b hb
    simp only [Function.comp, hkey, hrr, relative_rebase]

theorem machine_move_tree (m m1 : Machine) (source destination : String)
    (hapart : Machine.view.apart destination source)
    (hmv : Machine.move m source destination = Except.ok m1) :
    Machine.entries m1 destination = Machine.entries m source := by
  unfold Machine.move Machine.copy at hmv
  rw [removeAll_eq] at hmv
  simp only at hmv
  split at hmv
  · cases hmv
  · rename_i m2 hc
    split at hc
    · cases hc
    · injection hc with hc
      subst hc
      rw [removeAll_eq] at hmv
      injection hmv with hmv
      subst hmv
      unfold Machine.entries
      simp only [Tree.mk.injEq]
      refine ⟨?_, ?_, ?_⟩
      · exact moved_entries m.files (fun f => f.1) (fun p f => (p, f.2))
          (fun _ _ => rfl) (fun _ _ _ => rfl) source destination hapart
      · exact moved_entries m.dirs (fun d => d) (fun p _ => p)
          (fun _ _ => rfl) (fun _ _ _ => rfl) source destination hapart
      · exact moved_entries m.links (fun f => f.1) (fun p f => (p, f.2))
          (fun _ _ => rfl) (fun _ _ _ => rfl) source destination hapart

/-- The sample machine obeys the laws of the file system. -/
theorem machine_laws : FsLaws Machine.sys Machine.view where
  removeAll_gone := by
    intro m m1 path fi hl hrm
    exact ⟨⟨_, lstat_removed m m1 path (lstat_ok_allowed m path fi hl) hrm, rfl⟩,
      entries_removed m m1 path hrm⟩
  removeAll_link := by
    intro m m1 path fi _ _ hrm q hapart
    exact entries_removed_apart m m1 path q hapart hrm
  mkdirAll_absent := machine_mkdirAll_absent
  mkdirAll_present := machine_mkdirAll_present
  move_gone := by
    intro m m1 source destination fi hl _ hmv
    exact ⟨_, machine_move_gone m m1 source destination fi hl hmv, rfl⟩
  move_tree := by
    intro m m1 source destination fi _ _ hapart hmv
    exact machine_move_tree m m1 source destination hapart hmv
  symlink_made := machine_symlink_made
  symlink_frame := by
    intro m m1 oldname newname hsl q hapart
    exact machine_symlink_frame m m1 oldname newname q hsl hapart

/-! ## What the materializer leaves on disk -/

/-- C11, the claim as stated fails: on the sample project with a real
`node_modules` directory in its root, a flat-directory call of `SetupModules`
with the current layer `/layers/yarn/current` succeeds, and afterwards
`/workspace/node_modules` is still a real directory and the machine holds no
symbolic link at all. -/
theorem setupModules_warm_keeps_directory :
    ParseYarnrcYml Machine.sys installedProject "/workspace" = Except.ok none ∧
    DetermineProvisionType "/workspace" none = "node_modules" ∧
    (SetupModules Machine.sys installedProject "/workspace" "/layers/yarn/current"
        "/layers/yarn/next").val = Except.ok "/layers/yarn/next" ∧
    Machine.sys.lstat
      (SetupModules Machine.sys installedProject "/workspace" "/layers/yarn/current"
        "/layers/yarn/next").state "/workspace/node_modules" =
      Except.ok { isSymlink := false, isDir := true } ∧
    (SetupModules Machine.sys installedProject "/workspace" "/layers/yarn/current"
        "/layers/yarn/next").state.links = [] :=
  ⟨rfl, by decide, rfl, rfl, by decide⟩

/-- C11, amended: for every successful flat-directory call of `SetupModules`
with no current layer, whatever the project root held before, the
project-root `node_modules` path is afterwards a symbolic link, not a
directory, and its target is `node_modules` in the next layer. With a current
layer, `SetupModules` is the one call of `fs.Copy` from that layer into the
next. -/
theorem setupModules_cold_leaves_symlink {σ κ : Type} (sys : Sys σ) (view : FsView σ κ)
    (laws : FsLaws sys view) (s : σ) (dir next : String) (cfg : Option YarnrcConfig)
    (hcfg : ParseYarnrcYml sys s dir = Except.ok cfg)
    (hflat : DetermineProvisionType dir cfg = "node_modules") :
    (∀ layer : String, (SetupModules sys s dir "" next).val = Except.ok layer →
      sys.lstat (SetupModules sys s dir "" next).state (sys.join dir "node_modules") =
        Except.ok { isSymlink := true, isDir := false } ∧
      view.target (SetupModules sys s dir "" next).state (sys.join dir "node_modules") =
        some (sys.join next "node_modules")) ∧
    (∀ current : String, current ≠ "" →
      SetupModules sys s dir current next =
        match sys.copy s (sys.join current "node_modules") (sys.join next "node_modules") with
        | Except.error err =>
          { val := Except.error ("failed to copy node_modules directory: " ++ err),
            state := s, trace := [] }
        | Except.ok s1 => { val := Except.ok next, state := s1, trace := [] }) := by
  refine ⟨?_, ?_⟩
  · intro layer hrun
    rw [setupModules_of_config sys s dir "" next cfg hcfg, if_pos hflat] at hrun ⊢
    exact (cold_symlink sys view laws s dir next layer hrun).2
  · intro current hcur
    rw [setupModules_of_config sys s dir current next cfg hcfg, if_pos hflat]
    unfold setupNodeModules
    rw [if_pos hcur]

/-- The sample project with a real `node_modules` directory, no current
layer: the directory gives way to a symbolic link into the next layer. -/
theorem setupModules_cold_leaves_symlink_witness :
    Machine.lstat
      (SetupModules Machine.sys installedProject "/workspace" "" "/layers/yarn/next").state
      "/workspace/node_modules" = Except.ok { isSymlink := true, isDir := false } ∧
    (SetupModules Machine.sys installedProject "/workspace" "" "/layers/yarn/next").state.links.lookup
      "/workspace/node_modules" = some "/layers/yarn/next/node_modules" :=
  (setupModules_cold_leaves_symlink Machine.sys Machine.view machine_laws installedProject
    "/workspace" "/layers/yarn/next" none rfl (by decide)).1 "/layers/yarn/next" rfl

/-- C12: in flat-directory mode with no current layer, a successful
`SetupModules` returns the next layer; the project-root `node_modules` is then
a symbolic link whose target is `node_modules` in the next layer, and that
directory holds what the real project-root directory held, and nothing when
the project root had no `node_modules` or had a symbolic link there. In the
last case the run removes that link alone: what lies below every path apart
from it, its target among them, is as before, and the run goes on as from a
project root without `node_modules`. The project-root path and the layer's
are taken to be apart, and the initial state to hold nothing below a path that
does not exist. -/
theorem setupModules_takes_ownership {σ κ : Type} (sys : Sys σ) (view : FsView σ κ)
    (laws : FsLaws sys view) (s : σ) (dir next layer : String) (cfg : Option YarnrcConfig)
    (hcfg : ParseYarnrcYml sys s dir = Except.ok cfg)
    (hflat : DetermineProvisionType dir cfg = "node_modules")
    (hapart : view.apart (sys.join next "node_modules") (sys.join dir "node_modules"))
    (hclean : ∀ e, sys.lstat s (sys.join dir "node_modules") = Except.error e →
      e.notExist = true → view.entries s (sys.join dir "node_modules") = view.empty)
    (hrun : (SetupModules sys s dir "" next).val = Except.ok layer) :
    layer = next ∧
    sys.lstat (SetupModules sys s dir "" next).state (sys.join dir "node_modules") =
      Except.ok { isSymlink := true, isDir := false } ∧
    view.target (SetupModules sys s dir "" next).state (sys.join dir "node_modules") =
      some (sys.join next "node_modules") ∧
    view.entries (SetupModules sys s dir "" next).state (sys.join next "node_modules") =
      (match sys.lstat s (sys.join dir "node_modules") with
       | Except.ok fi =>
         if fi.isSymlink = true then view.empty
         else view.entries s (sys.join dir "node_modules")
       | Except.error _ => view.empty) ∧
    (∀ fi, sys.lstat s (sys.join dir "node_modules") = Except.ok fi → fi.isSymlink = true →
      ∃ s1, sys.removeAll s (sys.join dir "node_modules") = Except.ok s1 ∧
        (∀ q, view.apart q (sys.join dir "node_modules") →
          view.entries s1 q = view.entries s q) ∧
        SetupModules sys s dir "" next = setupNodeModules sys s1 dir "" next) := by
  rw [setupModules_of_config sys s dir "" next cfg hcfg, if_pos hflat] at hrun ⊢
  obtain ⟨h1, h2, h3⟩ := cold_symlink sys view laws s dir next layer hrun
  refine ⟨h1, h2, h3, ?_, ?_⟩
  · rw [cold_entries sys view laws s dir next layer hapart hrun]
    cases hl : sys.lstat s (sys.join dir "node_modules") with
    | ok fi => rfl
    | error e =>
      obtain ⟨s1, s2, s3, s4, hfirst, -⟩ := setup_cold_steps sys s dir next layer hrun
      have hn : e.notExist = true := by
        rcases hfirst with ⟨fi, hl1, -⟩ | ⟨fi, hl1, -⟩ | ⟨e1, hl1, hn1, -⟩
        · rw [hl] at hl1; cases hl1
        · rw [hl] at hl1; cases hl1
        · rw [hl] at hl1
          injection hl1 with h
          rw [h]; exact hn1
      exact hclean e hl hn
  · intro fi hl hs
    exact cold_link_only sys view laws s dir next layer fi hl hs hrun

/-- The sample project with a link left by an earlier build: the link goes,
its target keeps its contents, the next layer gets an empty `node_modules`
and the project root a link to it. -/
theorem setupModules_takes_ownership_witness :
    Machine.lstat
      (SetupModules Machine.sys relinkedProject "/workspace" "" "/layers/yarn/next").state
      "/workspace/node_modules" = Except.ok { isSymlink := true, isDir := false } ∧
    (SetupModules Machine.sys relinkedProject "/workspace" "" "/layers/yarn/next").state.links.lookup
      "/workspace/node_modules" = some "/layers/yarn/next/node_modules" ∧
    Machine.entries
      (SetupModules Machine.sys relinkedProject "/workspace" "" "/layers/yarn/next").state
      "/layers/yarn/next/node_modules" = { files := [], dirs := [], links := [] } :=
  have h := setupModules_takes_ownership Machine.sys Machine.view machine_laws relinkedProject
    "/workspace" "/layers/yarn/next" "/layers/yarn/next" none rfl (by decide)
    ⟨by decide, by decide, by decide⟩ (by intro e h; cases h) rfl
  ⟨h.2.1, h.2.2.1, h.2.2.2.1⟩

/-! ## The probe of the fingerprint -/

theorem probe_same_output (output env1 env2 : String) :
    probeContent output env1 = probeContent output env2 ↔ env1 = env2 := by
  unfold probeContent
  constructor
  · intro h
    have h1 : (output ++ env1).data = (output ++ env2).data := by rw [h]
    rw [String.data_append, String.data_append] at h1
    exact String.ext (List.append_cancel_left h1)
  · intro h; rw [h]

theorem probe_same_env (output1 output2 env : String) :
    probeContent output1 env = probeContent output2 env ↔ output1 = output2 := by
  unfold probeContent
  constructor
  · intro h
    have h1 : (output1 ++ env).data = (output2 ++ env).data := by rw [h]
    rw [String.data_append, String.data_append] at h1
    exact String.ext (List.append_cancel_right h1)
  · intro h; rw [h]

/-- C13, the claim as stated fails: the two sample projects have the same
lock file and manifest and the distinct pairs `("ab", "c")` and `("a", "bc")`
of introspection output and `NODE_ENV`; both hand the probe `abc` to the
checksum and both get the same fingerprint. -/
theorem probe_collision :
    (Machine.sys.execute probeProjectA
        { Args := ["info", "--all", "--json"], Env := [], Dir := "/workspace" }).output = "ab" ∧
    Machine.sys.getenv probeProjectA "NODE_ENV" = "c" ∧
    (Machine.sys.execute probeProjectB
        { Args := ["info", "--all", "--json"], Env := [], Dir := "/workspace" }).output = "a" ∧
    Machine.sys.getenv probeProjectB "NODE_ENV" = "bc" ∧
    probeProjectA.files = probeProjectB.files ∧
    probeContent "ab" "c" = probeContent "a" "bc" ∧
    (ShouldRun Machine.sys probeProjectA "/workspace" Metadata.empty).state.files.lookup
        "/tmp/berry-config-file0" = some "abc" ∧
    (ShouldRun Machine.sys probeProjectB "/workspace" Metadata.empty).state.files.lookup
        "/tmp/berry-config-file0" = some "abc" ∧
    (ShouldRun Machine.sys probeProjectA "/workspace" Metadata.empty).val =
      { run := true, sha := "# yarn lockfile v1\n\n\x7b\x7d\nabc\n", err := none } ∧
    (ShouldRun Machine.sys probeProjectB "/workspace" Metadata.empty).val =
      { run := true, sha := "# yarn lockfile v1\n\n\x7b\x7d\nabc\n", err := none } := by
  refine ⟨rfl, by decide, rfl, by decide, rfl, by decide, by decide, by decide, by decide,
    by decide⟩

/-- C13, amended: the data handed to the checksum is the introspection output
followed directly by the value of `NODE_ENV`, and the fingerprint is the
checksum of the lock file, the manifest and the file holding exactly that.
Two runs with the same output and different `NODE_ENV`, or with the same
`NODE_ENV` and different outputs, hand different data to the checksum; two
pairs hand it the same data exactly when their concatenations coincide. -/
theorem probe_sensitivity :
    (∀ output env1 env2 : String,
      probeContent output env1 = probeContent output env2 ↔ env1 = env2) ∧
    (∀ output1 output2 env : String,
      probeContent output1 env = probeContent output2 env ↔ output1 = output2) ∧
    (∀ output1 env1 output2 env2 : String,
      probeContent output1 env1 = probeContent output2 env2 ↔
        output1 ++ env1 = output2 ++ env2) ∧
    (∀ (σ : Type) (sys : Sys σ) (s : σ) (dir : String) (metadata : Metadata)
      (fileName : String) (s1 s2 : σ) (fp : String),
      (sys.execute s { Args := ["info", "--all", "--json"], Env := [], Dir := dir }).err = none →
      sys.createTemp (sys.execute s
        { Args := ["info", "--all", "--json"], Env := [], Dir := dir }).state
          "" "berry-config-file" = Except.ok (fileName, s1) →
      sys.write s1 fileName
        (probeContent
          (sys.execute s { Args := ["info", "--all", "--json"], Env := [], Dir := dir }).output
          (sys.getenv (sys.execute s
            { Args := ["info", "--all", "--json"], Env := [], Dir := dir }).state "NODE_ENV"))
        = Except.ok s2 →
      sys.sum s2 [sys.join dir "yarn.lock", sys.join dir "package.json", fileName]
        = Except.ok fp →
      metadata "cache_sha" ≠ some (GoValue.str fp) →
        (shouldRunForNodeModules sys s dir metadata).val =
          { run := true, sha := fp, err := none }) := by
  refine ⟨probe_same_output, probe_same_env, fun _ _ _ _ => Iff.rfl, ?_⟩
  intro σ sys s dir metadata fileName s1 s2 fp hinfo htemp hwrite hsum hmeta
  rw [nodeModules_compare sys s dir metadata fileName s1 s2 fp hinfo htemp hwrite hsum,
    if_neg hmeta]

/-- The flat sample project: its fingerprint is the checksum over the lock
file, the manifest and the probe `left-pad@npm:1.3.0`, newline, `production`. -/
theorem probe_sensitivity_witness :
    probeContent "left-pad@npm:1.3.0\n" "production" ≠
      probeContent "left-pad@npm:1.3.0\n" "development" ∧
    (shouldRunForNodeModules Machine.sys flatProject "/workspace" Metadata.empty).val =
      { run := true,
        sha := "# yarn lockfile v1\n\n\x7b\x7d\nleft-pad@npm:1.3.0\nproduction\n",
        err := none } :=
  ⟨fun h => absurd ((probe_sensitivity.1 _ _ _).1 h) (by decide),
   probe_sensitivity.2.2.2 Machine Machine.sys flatProject "/workspace" Metadata.empty
    "/tmp/berry-config-file0"
    { flatProject with
      files := ("/tmp/berry-config-file0", "") :: flatProject.files, temps := 1 }
    { flatProject with
      files := ("/tmp/berry-config-file0", "left-pad@npm:1.3.0\nproduction")
        :: flatProject.files, temps := 1 }
    "# yarn lockfile v1\n\n\x7b\x7d\nleft-pad@npm:1.3.0\nproduction\n"
    rfl rfl rfl rfl (by simp [Metadata.empty])⟩

/-! ## The generation of the package manager -/

/-- C14: `DetermineYarnVersion` never returns an error. It answers `"berry"`
exactly when `os.Stat` finds `.yarnrc.yml`, whether or not there is a lock
file; `"classic"` exactly when it does not and finds `yarn.lock`; and the
empty string exactly when it finds neither. -/
theorem determineYarnVersion_table {σ : Type} (sys : Sys σ) (s : σ) (dir : String) :
    (∃ version, DetermineYarnVersion sys s dir = Except.ok version) ∧
    (DetermineYarnVersion sys s dir = Except.ok "berry" ↔
      ∃ info, sys.stat s (sys.join dir ".yarnrc.yml") = Except.ok info) ∧
    (DetermineYarnVersion sys s dir = Except.ok "classic" ↔
      (¬ ∃ info, sys.stat s (sys.join dir ".yarnrc.yml") = Except.ok info) ∧
      ∃ info, sys.stat s (sys.join dir "yarn.lock") = Except.ok info) ∧
    (DetermineYarnVersion sys s dir = Except.ok "" ↔
      (¬ ∃ info, sys.stat s (sys.join dir ".yarnrc.yml") = Except.ok info) ∧
      ¬ ∃ info, sys.stat s (sys.join dir "yarn.lock") = Except.ok info) := by
  unfold DetermineYarnVersion
  simp only [YarnrcYml, YarnLock, YarnBerry, YarnClassic]
  cases h1 : sys.stat s (sys.join dir ".yarnrc.yml") with
  | ok info => simp
  | error e1 =>
    cases h2 : sys.stat s (sys.join dir "yarn.lock") with
    | ok info => simp
    | error e2 => simp

end YarnInstall
